import Mathlib

/-!
Shallow embedding of `src/tools/gxpmd-harden.py` (GxP.MD compliance sweep tool):
the annotation extractor, traceability-graph builder, coverage calculator,
validator, orphan detector and coverage analyzer, together with theorems
settling the specification claims about them.

Python dicts are modelled as association lists in insertion order, Python sets
as duplicate-free lists in first-insertion order (the program only uses sets
through membership, difference and sorting, which are order-insensitive), and
`None` as `Option.none`.
-/

namespace GxpMd

/-! ### Python string-operation helpers (over `List Char`) -/

def leadsWith : List Char → List Char → Bool
  | [], _ => true
  | _ :: _, [] => false
  | c :: l, d :: s => c = d && leadsWith l s

def occursIn (needle : List Char) : List Char → Bool
  | [] => leadsWith needle []
  | c :: cs => leadsWith needle (c :: cs) || occursIn needle cs

def endsWithCh (suf s : List Char) : Bool :=
  leadsWith suf.reverse s.reverse

def strStarts (pre s : String) : Bool :=
  leadsWith pre.data s.data

def strDropN (n : Nat) (s : String) : String :=
  String.mk (s.data.drop n)

def memB (x : String) : List String → Bool
  | [] => false
  | y :: ys => if x = y then true else memB x ys

/-- Python `str` ordering is by code point; compare char lists lexicographically. -/
def chLe : List Char → List Char → Bool
  | [], _ => true
  | _ :: _, [] => false
  | a :: as, b :: bs => if a = b then chLe as bs else decide (a < b)

def strLeB (a b : String) : Bool := chLe a.data b.data

def insertSorted (x : String) : List String → List String
  | [] => [x]
  | y :: ys => if strLeB x y then x :: y :: ys else y :: insertSorted x ys

/-- Python `sorted` on a list of strings (stable insertion sort). -/
def sortStr (l : List String) : List String := l.foldr insertSorted []

/-- Python `set(xs)` kept in first-occurrence order (set iteration order is
unspecified in Python; it is only consumed through order-insensitive uses). -/
def dedupFirst (l : List String) : List String :=
  l.foldl (fun acc x => if memB x acc then acc else acc ++ [x]) []

def joinSep (sep : String) : List String → String
  | [] => ""
  | [x] => x
  | x :: y :: ys => x ++ sep ++ joinSep sep (y :: ys)

/-- Python `repr` of a list of strings, as interpolated by the f-strings. -/
def pyList (l : List String) : String :=
  "[" ++ joinSep ", " (l.map (fun s => "\x27" ++ s ++ "\x27")) ++ "]"

/-! ### `_is_test_file` -/

def lastComponent (p : List Char) : List Char :=
  p.foldl (fun acc c => if c = '/' then [] else acc ++ [c]) []

def lastDotIdx (name : List Char) : Option Nat :=
  ((name.enum.filter (fun q => q.2 = '.')).map (fun q => q.1)).getLast?

/-- `pathlib.PurePath.stem` of a file name (POSIX flavour). -/
def stemOf (name : List Char) : List Char :=
  match lastDotIdx name with
  | some i => if 0 < i ∧ i < name.length - 1 then name.take i else name
  | none => name

def testSegs : List String :=
  ["/tests/", "/test/", "/__tests__/", "/spec/", "/iq/", "/oq/", "/pq/"]

def testSuffixes : List String := [".test", ".spec", "_test", "_spec"]

/-- `_is_test_file(rel_path)` from the source. -/
def isTestFileFn (rel : String) : Bool :=
  let parts := (rel.data.map Char.toLower).map (fun c => if c = '\\' then '/' else c)
  if testSegs.any (fun seg => occursIn seg.data parts) then true
  else
    let base := (stemOf (lastComponent rel.data)).map Char.toLower
    testSuffixes.any (fun suf => endsWithCh suf.data base)

/-! ### Data model -/

structure LegacyRef where
  id : String
  desc : String
deriving DecidableEq

/-- Per-file structured record produced by the extractor (`parse_annotations`). -/
structure Ann where
  file : String
  is_test : Bool
  satisfies : List String
  implements : List String
  verifies : List String
  derives_from : List String
  risk_levels : List String
  risk_concerns : List String
  test_types : List String
  requirements : List LegacyRef
  specifications : List LegacyRef
  traces : List String
deriving DecidableEq

structure Node where
  phase : String
  risk : Option String
  files : List String
  title : Option String
  tiers : List String
deriving DecidableEq

structure Edge where
  fromId : String
  toId : String
  typ : String
  source_file : String
deriving DecidableEq

structure CovRec where
  risk : Option String
  covered : Bool
  test_nodes : List String
  reachable_nodes : Nat
deriving DecidableEq

structure VIssue where
  file : String
  severity : String
  message : String
deriving DecidableEq

structure OIssue where
  node : String
  severity : String
  message : String
deriving DecidableEq

structure CIssue where
  requirement : String
  severity : String
  message : String
deriving DecidableEq

structure LevelCfg where
  coverage_threshold : Nat
  required_tiers : List String
deriving DecidableEq

def lookupN {α : Type} : List (String × α) → String → Option α
  | [], _ => none
  | (k, v) :: rest, key => if k = key then some v else lookupN rest key

def updFst : List (String × Node) → String → (Node → Node) → List (String × Node)
  | [], _, _ => []
  | (k, v) :: rest, nid, f =>
    if k = nid then (k, f v) :: rest else (k, v) :: updFst rest nid f

/-! ### Graph construction (`build_traceability` and helpers) -/

/-- Python truthiness of an optional string (`None` and `''` are falsy). -/
def truthyOpt : Option String → Bool
  | none => false
  | some s => s ≠ ""

/-- `_RISK_ORDER.get(x, 0)`. -/
def riskOrder (r : String) : Nat :=
  if r = "HIGH" then 3 else if r = "MEDIUM" then 2 else if r = "LOW" then 1 else 0

/-- The node freshly inserted by `_ensure_node` when the id is absent. -/
def newNode (phase : String) (risk title : Option String) : Node :=
  { phase := phase, risk := risk, files := [], title := title, tiers := [] }

/-- The `if risk:` merge step of `_ensure_node` (max-severity risk). -/
def riskMerge (risk : Option String) (nd : Node) : Node :=
  if truthyOpt risk then
    if !truthyOpt nd.risk || riskOrder (risk.getD "") > riskOrder (nd.risk.getD "") then
      { nd with risk := risk }
    else nd
  else nd

/-- The `if title and not ...` merge step of `_ensure_node` (first title wins). -/
def titleMerge (title : Option String) (nd : Node) : Node :=
  if truthyOpt title && !truthyOpt nd.title then { nd with title := title } else nd

/-- The `if file and file not in ...` merge step of `_ensure_node`. -/
def fileMerge (file : Option String) (nd : Node) : Node :=
  match file with
  | some f0 => if f0 ≠ "" && !memB f0 nd.files then { nd with files := nd.files ++ [f0] } else nd
  | none => nd

/-- The attribute-merge part of `_ensure_node`: max-severity risk, first
non-empty title, growing file list, applied in source order. -/
def nodeUpd (risk title file : Option String) (nd : Node) : Node :=
  fileMerge file (titleMerge title (riskMerge risk nd))

/-- `_ensure_node(nodes, node_id, phase, risk, title, file)`. -/
def ensureNode (nodes : List (String × Node)) (nid phase : String)
    (risk : Option String) (title : Option String) (file : Option String) :
    List (String × Node) :=
  let nodes :=
    match lookupN nodes nid with
    | some _ => nodes
    | none => nodes ++ [(nid, newNode phase risk title)]
  updFst nodes nid (nodeUpd risk title file)

/-- The set-insert done on a file node's tier set. -/
def tierUpd (t : String) (nd : Node) : Node :=
  if memB t nd.tiers then nd else { nd with tiers := nd.tiers ++ [t] }

/-- `nodes[file_node_id].setdefault('tiers', set()).add(tier)`. -/
def addTier (nodes : List (String × Node)) (fid t : String) : List (String × Node) :=
  updFst nodes fid (tierUpd t)

def fileNodeId (f : String) : String :=
  String.mk ('F' :: 'I' :: 'L' :: 'E' :: ':' :: f.data)

def inferPhase (nid : String) : String :=
  if strStarts "REQ-" nid then "requirement"
  else if strStarts "US-" nid then "user_story"
  else if strStarts "SPEC-" nid then "specification"
  else "unknown"

/-- `risk = ann['risk_levels'][0] if ann['risk_levels'] else 'UNKNOWN'`. -/
def annRisk (a : Ann) : String := a.risk_levels.headD "UNKNOWN"

def filePhase (a : Ann) : String := if a.is_test then "test" else "code"

/-- The ids the file itself declared via satisfies/implements/verifies. -/
def ownIds (a : Ann) : List String := a.satisfies ++ a.implements ++ a.verifies

abbrev GState := List (String × Node) × List Edge

def satStep (a : Ann) (st : GState) (rid : String) : GState :=
  let ns := ensureNode st.1 rid "requirement" (some (annRisk a)) none none
  let ns := ensureNode ns (fileNodeId a.file) (filePhase a) (some (annRisk a)) none (some a.file)
  (ns, st.2 ++ [⟨fileNodeId a.file, rid, "satisfies", a.file⟩])

def satLoop (a : Ann) (st : GState) : GState :=
  a.satisfies.foldl (satStep a) st

def implStep (a : Ann) (st : GState) (iid : String) : GState :=
  let ph := if strStarts "US-" iid then "user_story" else "specification"
  let ns := ensureNode st.1 iid ph (some (annRisk a)) none none
  let ns := ensureNode ns (fileNodeId a.file) (filePhase a) (some (annRisk a)) none (some a.file)
  (ns, st.2 ++ [⟨fileNodeId a.file, iid, "implements", a.file⟩])

def implLoop (a : Ann) (st : GState) : GState :=
  a.implements.foldl (implStep a) st

/-- The `for tier in ann.get('test_types', [])` loop inside the verifies loop. -/
def tierFold (a : Ann) (ns : List (String × Node)) : List (String × Node) :=
  a.test_types.foldl (fun ns t => addTier ns (fileNodeId a.file) t) ns

def verStep (a : Ann) (st : GState) (vid : String) : GState :=
  let ns := ensureNode st.1 vid "specification" (some (annRisk a)) none none
  let ns := ensureNode ns (fileNodeId a.file) (filePhase a) (some (annRisk a)) none (some a.file)
  let ns := tierFold a ns
  (ns, st.2 ++ [⟨fileNodeId a.file, vid, "verifies", a.file⟩])

def verLoop (a : Ann) (st : GState) : GState :=
  a.verifies.foldl (verStep a) st

def derStep (a : Ann) (st : GState) (did : String) : GState :=
  let ns := ensureNode st.1 did (inferPhase did) none none none
  (ns, st.2 ++ (ownIds a).map (fun own => (⟨own, did, "derives_from", a.file⟩ : Edge)))

def derLoop (a : Ann) (st : GState) : GState :=
  a.derives_from.foldl (derStep a) st

def reqStep (a : Ann) (st : GState) (r : LegacyRef) : GState :=
  let ns := ensureNode st.1 r.id "requirement" none (some r.desc) none
  let ns := ensureNode ns (fileNodeId a.file) (filePhase a) (some (annRisk a)) none (some a.file)
  (ns, st.2 ++ [⟨fileNodeId a.file, r.id, "satisfies", a.file⟩])

def reqLoop (a : Ann) (st : GState) : GState :=
  a.requirements.foldl (reqStep a) st

def specStep (a : Ann) (st : GState) (s : LegacyRef) : GState :=
  let ns := ensureNode st.1 s.id "specification" none (some s.desc) none
  let ns := ensureNode ns (fileNodeId a.file) (filePhase a) (some (annRisk a)) none (some a.file)
  let et := if a.is_test then "verifies" else "implements"
  (ns, st.2 ++ [⟨fileNodeId a.file, s.id, et, a.file⟩])

def specLoop (a : Ann) (st : GState) : GState :=
  a.specifications.foldl (specStep a) st

def traceStep (a : Ann) (st : GState) (us : String) : GState :=
  let ns := ensureNode st.1 us "user_story" none none none
  let ns := ensureNode ns (fileNodeId a.file) (filePhase a) (some (annRisk a)) none (some a.file)
  (ns, st.2 ++ [⟨fileNodeId a.file, us, "verifies", a.file⟩])

def traceLoop (a : Ann) (st : GState) : GState :=
  a.traces.foldl (traceStep a) st

def processAnn (a : Ann) (st : GState) : GState :=
  traceLoop a (specLoop a (reqLoop a (derLoop a (verLoop a (implLoop a (satLoop a st))))))

/-! ### Coverage via undirected BFS (`_calculate_coverage`) -/

/-- Undirected adjacency list: for every edge, `adj[to]` gains `from` and then
`adj[from]` gains `to`, in edge order. -/
def adjOf (edges : List Edge) (x : String) : List String :=
  edges.foldl (fun acc e =>
    acc ++ (if e.toId = x then [e.fromId] else []) ++ (if e.fromId = x then [e.toId] else [])) []

/-- The test-node check applied to a newly visited neighbor in `_calculate_coverage`. -/
def isTestRole (nodes : List (String × Node)) (nid : String) : Bool :=
  match lookupN nodes nid with
  | some nd =>
    if nd.phase = "test" then true
    else if strStarts "FILE:" nid && isTestFileFn (strDropN 5 nid) then true
    else false
  | none => false

/-- The inner `for neighbor in undirected_adj.get(current, [])` loop. -/
def stepNbrs (nodes : List (String × Node)) :
    List String → List String → List String → List String →
    List String × List String × List String
  | [], q, v, f => (q, v, f)
  | n :: ns, q, v, f =>
    if memB n v then stepNbrs nodes ns q v f
    else stepNbrs nodes ns (q ++ [n]) (v ++ [n]) (if isTestRole nodes n then f ++ [n] else f)

/-- The `while queue:` loop. Fuel bound: every loop iteration pops one queue
entry; an entry is pushed only when first visited, and every pushed entry other
than the start occurs in some adjacency list, whose total size is `2 * |edges|`;
so the queue empties within `2 * |edges| + 1` iterations. -/
def bfsLoop (nodes : List (String × Node)) (adj : String → List String) :
    Nat → List String → List String → List String → List String × List String
  | 0, _, v, f => (v, f)
  | _ + 1, [], v, f => (v, f)
  | fuel + 1, cur :: rest, v, f =>
    let r := stepNbrs nodes (adj cur) rest v f
    bfsLoop nodes adj fuel r.1 r.2.1 r.2.2

/-- BFS from `rid`: returns (visited in visit order, test nodes found). -/
def bfsRun (nodes : List (String × Node)) (edges : List Edge) (rid : String) :
    List String × List String :=
  bfsLoop nodes (adjOf edges) (2 * edges.length + 2) [rid] [rid] []

def calcCoverage (nodes : List (String × Node)) (edges : List Edge) :
    List (String × CovRec) :=
  (nodes.filter (fun p => p.2.phase = "requirement")).map (fun p =>
    let r := bfsRun nodes edges p.1
    (p.1, { risk := p.2.risk, covered := decide (0 < r.2.length),
            test_nodes := r.2, reachable_nodes := r.1.length }))

structure TraceOut where
  nodes : List (String × Node)
  edges : List Edge
  coverage : List (String × CovRec)

def buildTraceability (anns : List Ann) : TraceOut :=
  let st := anns.foldl (fun st a => processAnn a st) ([], [])
  { nodes := st.1, edges := st.2, coverage := calcCoverage st.1 st.2 }

/-! ### Validator (`validate_annotations`) -/

def riskHeadNotLow : List String → Bool
  | [] => false
  | r :: _ => r ≠ "LOW"

def vIssuesFor (a : Ann) : List VIssue :=
  let hasEdges := !a.satisfies.isEmpty || !a.implements.isEmpty ||
    !a.verifies.isEmpty || !a.derives_from.isEmpty
  let hasLegacy := !a.requirements.isEmpty || !a.specifications.isEmpty || !a.traces.isEmpty
  let core :=
    if a.is_test then
      (if a.verifies.isEmpty && a.specifications.isEmpty then
        [⟨a.file, "ERROR", "Test file missing @gxp-verifies (or legacy @gxp-spec) annotation"⟩]
      else []) ++
      (if a.test_types.isEmpty then
        [⟨a.file, "ERROR", "Test file missing @test-type annotation"⟩] else []) ++
      (if a.risk_levels.isEmpty then
        [⟨a.file, "ERROR", "Test file missing @gxp-risk annotation"⟩] else [])
    else
      (if !hasEdges && !hasLegacy && riskHeadNotLow a.risk_levels then
        [⟨a.file, "ERROR",
          "Source file has no traceability edge tags (@gxp-satisfies, @gxp-implements)"⟩]
      else []) ++
      (if a.risk_levels.isEmpty then
        [⟨a.file, "ERROR", "Source file missing @gxp-risk annotation"⟩] else [])
  let legacyWarn :=
    if hasLegacy && !hasEdges then
      [⟨a.file, "WARNING",
        "File uses v2 legacy tags (@gxp-req/@gxp-spec/@trace). Migrate to v3 edge tags (@gxp-satisfies/@gxp-implements/@gxp-verifies)"⟩]
    else []
  let mixedWarn :=
    if 1 < (dedupFirst a.risk_levels).length then
      [⟨a.file, "WARNING", "File has mixed risk levels: " ++ joinSep ", " (dedupFirst a.risk_levels)⟩]
    else []
  core ++ legacyWarn ++ mixedWarn

def validateAnns (anns : List Ann) : List VIssue :=
  anns.flatMap vIssuesFor

/-! ### Orphan detector (`find_orphans`) -/

/-- The in/out-degree case split of `find_orphans` for one node, with
`hasOut`/`hasIn` already computed. -/
def hasDegrees (p : String × Node) (hasOut hasIn : Bool) : List OIssue :=
  if !hasOut && !hasIn then
    [⟨p.1, if p.2.risk = some "HIGH" then "ERROR" else "WARNING",
      p.1 ++ " is completely disconnected from the traceability graph"⟩]
  else if p.2.phase = "requirement" && !hasIn then
    [⟨p.1, "WARNING", p.1 ++ " has no code or specs satisfying it"⟩]
  else if p.2.phase = "specification" && !hasIn then
    [⟨p.1, "WARNING", p.1 ++ " has no tests verifying it"⟩]
  else []

def orphanIssuesFor (edges : List Edge) (p : String × Node) : List OIssue :=
  if strStarts "FILE:" p.1 then []
  else hasDegrees p (edges.any (fun e => e.fromId = p.1)) (edges.any (fun e => e.toId = p.1))

def findOrphans (nodes : List (String × Node)) (edges : List Edge) : List OIssue :=
  nodes.flatMap (orphanIssuesFor edges)

/-! ### Coverage analyzer (`analyze_coverage`) -/

/-- The `DEFAULT_CONFIG['risk_matrix']` lookup; `matrix.get(risk, {})` with a
possibly-`None` key. -/
def defaultMatrix : Option String → Option LevelCfg
  | some r =>
    if r = "HIGH" then some ⟨95, ["IQ", "OQ", "PQ"]⟩
    else if r = "MEDIUM" then some ⟨80, ["OQ", "PQ"]⟩
    else if r = "LOW" then some ⟨60, ["OQ"]⟩
    else none
  | none => none

/-- Python `str(x)` of a string-or-`None` value, as interpolated by f-strings. -/
def riskStr : Option String → String
  | some r => r
  | none => "None"

/-- `test_tiers.update(xs)`: set union kept in first-insertion order. -/
def addAll (s xs : List String) : List String :=
  xs.foldl (fun s x => if memB x s then s else s ++ [x]) s

/-- Percentage entry of the external coverage report. The Python values are
floats; no claim depends on fractional percentages, so they are modelled as
integers. The outer `Option` models key presence, the inner one a `pct` field
that may itself be `None`. -/
structure CovEntry where
  statements : Option (Option Int)
  lines : Option (Option Int)

def tryKeys : List String → List (String × CovEntry) → Option Int
  | [], _ => none
  | k :: ks, cd =>
    match lookupN cd k with
    | some e =>
      match e.statements with
      | some pct => pct
      | none =>
        match e.lines with
        | some pct => pct
        | none => tryKeys ks cd
    | none => tryKeys ks cd

/-- `_get_file_coverage(filepath, coverage_data)`. -/
def getFileCoverage (fp : String) (cd : List (String × CovEntry)) : Option Int :=
  tryKeys [fp, "./" ++ fp, "/" ++ fp] cd

/-- Rendering of the reported percentage (`{file_cov:.1f}` in Python; integral
values modelled, rendered with one decimal place). -/
def fmtPct (pct : Int) : String := toString pct ++ ".0"

/-- The neighbor loop of the analyzer BFS: collects tiers (set union) and files
from newly visited `test`-phase nodes. -/
def stepNbrsA (nodes : List (String × Node)) :
    List String → List String → List String → List String → List String →
    List String × List String × List String × List String
  | [], q, v, tiers, files => (q, v, tiers, files)
  | n :: ns, q, v, tiers, files =>
    if memB n v then stepNbrsA nodes ns q v tiers files
    else
      match lookupN nodes n with
      | some nd =>
        if nd.phase = "test" then
          stepNbrsA nodes ns (q ++ [n]) (v ++ [n]) (addAll tiers nd.tiers) (files ++ nd.files)
        else stepNbrsA nodes ns (q ++ [n]) (v ++ [n]) tiers files
      | none => stepNbrsA nodes ns (q ++ [n]) (v ++ [n]) tiers files

def bfsLoopA (nodes : List (String × Node)) (adj : String → List String) :
    Nat → List String → List String → List String → List String →
    List String × List String × List String
  | 0, _, v, tiers, files => (v, tiers, files)
  | _ + 1, [], v, tiers, files => (v, tiers, files)
  | fuel + 1, cur :: rest, v, tiers, files =>
    let r := stepNbrsA nodes (adj cur) rest v tiers files
    bfsLoopA nodes adj fuel r.1 r.2.1 r.2.2.1 r.2.2.2

def bfsRunA (nodes : List (String × Node)) (edges : List Edge) (rid : String) :
    List String × List String × List String :=
  bfsLoopA nodes (adjOf edges) (2 * edges.length + 2) [rid] [rid] [] []

def analyzeCoverage (matrix : Option String → Option LevelCfg) (tr : TraceOut)
    (covData : Option (List (String × CovEntry))) : List CIssue :=
  (tr.nodes.filter (fun p => p.2.phase = "requirement")).flatMap (fun p =>
    let risk := p.2.risk
    if risk = some "UNKNOWN" then
      [⟨p.1, "WARNING", "No risk level assigned"⟩]
    else
      let lc := matrix risk
      let requiredTiers := dedupFirst ((lc.map (fun c => c.required_tiers)).getD [])
      let r := bfsRunA tr.nodes tr.edges p.1
      let testTiers := r.2.1
      let testFiles := r.2.2
      let missing := requiredTiers.filter (fun t => !memB t testTiers)
      (if !missing.isEmpty then
        [⟨p.1, "ERROR",
          riskStr risk ++ " risk requires tiers " ++ pyList (sortStr requiredTiers) ++
          " but only " ++ pyList (sortStr testTiers) ++ " present. Missing: " ++
          pyList (sortStr missing)⟩]
      else []) ++
      (if testFiles.isEmpty then
        [⟨p.1, "ERROR", "No test files found for this requirement"⟩]
      else []) ++
      (match covData with
      | none => []
      | some cd =>
        let threshold := (lc.map (fun c => c.coverage_threshold)).getD 0
        p.2.files.flatMap (fun src =>
          match getFileCoverage src cd with
          | some pct =>
            if pct < (threshold : Int) then
              [⟨p.1, "ERROR",
                src ++ ": coverage " ++ fmtPct pct ++ "% < " ++ toString threshold ++
                "% threshold for " ++ riskStr risk ++ " risk"⟩]
            else []
          | none => [])))

/-! ### Annotation extractor (`parse_annotations` and the regex patterns)

Each regex of the source is modelled by a deterministic matcher over
`List Char`; the patterns are unambiguous (every greedy sub-pattern is followed
by a character its repetition cannot consume), so deterministic matching agrees
with the regex engine. `re.search` tries each start position left to right;
`re.findall` additionally continues scanning from the end of each match. -/

/-- `\s` (the ASCII whitespace characters; the scanned tags use only these). -/
def isSpaceCh (c : Char) : Bool :=
  c = ' ' || c = '\t' || c = '\n' || c = '\r' || c = '\x0b' || c = '\x0c'

/-- Match a literal, returning the rest of the input. -/
def dropLit : List Char → List Char → Option (List Char)
  | [], s => some s
  | _ :: _, [] => none
  | c :: l, d :: s => if c = d then dropLit l s else none

/-- `\s+`: at least one whitespace character, consumed greedily. -/
def skipSpaces1 : List Char → Option (List Char)
  | [] => none
  | c :: cs => if isSpaceCh c then some (cs.dropWhile isSpaceCh) else none

/-- `\d{3}`: exactly three digits; returns (digits, rest). -/
def digit3 : List Char → Option (List Char × List Char)
  | a :: b :: c :: rest =>
    if a.isDigit && b.isDigit && c.isDigit then some ([a, b, c], rest) else none
  | _ => none

/-- One alternative of `(?:ALT)-\d{3}`: returns (matched text, rest). -/
def tryAlt (alt : List Char) (s : List Char) : Option (List Char × List Char) :=
  match dropLit alt s with
  | some r1 =>
    match dropLit ['-'] r1 with
    | some r2 =>
      match digit3 r2 with
      | some (ds, rest) => some (alt ++ '-' :: ds, rest)
      | none => none
    | none => none
  | none => none

/-- `(?:A1|A2|...)-\d{3}`: alternatives tried in pattern order. -/
def matchAltId : List (List Char) → List Char → Option (List Char × List Char)
  | [], _ => none
  | alt :: alts, s =>
    match tryAlt alt s with
    | some r => some r
    | none => matchAltId alts s

/-- The optional `(?:-\d{3})?` extension of legacy spec/trace ids. -/
def optExt (p : List Char × List Char) : List Char × List Char :=
  match dropLit ['-'] p.2 with
  | some r =>
    match digit3 r with
    | some (ds, rest) => (p.1 ++ '-' :: ds, rest)
    | none => p
  | none => p

/-- The `(?:\s*,\s*ID)*` repetition of the v3 edge tags, accumulating the
matched group text. Each successful iteration consumes at least the comma, so
fuel `|input|` never runs out. -/
def idListLoop (alts : List (List Char)) : Nat → List Char → List Char → List Char × List Char
  | 0, grp, s => (grp, s)
  | fuel + 1, grp, s =>
    let sp1 := s.takeWhile isSpaceCh
    let r1 := s.dropWhile isSpaceCh
    match dropLit [','] r1 with
    | some r2 =>
      let sp2 := r2.takeWhile isSpaceCh
      let r3 := r2.dropWhile isSpaceCh
      match matchAltId alts r3 with
      | some (idc, rest) => idListLoop alts fuel (grp ++ sp1 ++ [','] ++ sp2 ++ idc) rest
      | none => (grp, s)
    | none => (grp, s)

/-- A v3 edge tag `LIT\s+((?:ID)(?:\s*,\s*ID)*)`: returns (group 1, rest). -/
def tryEdgeTag (lit : List Char) (alts : List (List Char)) (s : List Char) :
    Option (List Char × List Char) :=
  match dropLit lit s with
  | some r1 =>
    match skipSpaces1 r1 with
    | some r2 =>
      match matchAltId alts r2 with
      | some (idc, rest) =>
        let r := idListLoop alts rest.length idc rest
        some (r.1, r.2)
      | none => none
    | none => none
  | none => none

/-- The optional description group `(?:\s+"([^"]*)")?`: returns the group
content and the rest when it matches. -/
def tryDesc (s : List Char) : Option (List Char × List Char) :=
  match skipSpaces1 s with
  | some r1 =>
    match dropLit ['"'] r1 with
    | some r2 =>
      let content := r2.takeWhile (fun c => c ≠ '"')
      let r3 := r2.dropWhile (fun c => c ≠ '"')
      match dropLit ['"'] r3 with
      | some rest => some (content, rest)
      | none => none
    | none => none
  | none => none

/-- A legacy tag `LIT\s+(ID[ext])(?:\s+"([^"]*)")?`: returns ((id, desc), rest);
an unmatched description group yields `''` as `findall` does for tuples. -/
def tryLegacy (lit : List Char) (alts : List (List Char)) (ext : Bool) (s : List Char) :
    Option ((List Char × List Char) × List Char) :=
  match dropLit lit s with
  | some r1 =>
    match skipSpaces1 r1 with
    | some r2 =>
      match matchAltId alts r2 with
      | some p =>
        let p := if ext then optExt p else p
        match tryDesc p.2 with
        | some (d, rest) => some ((p.1, d), rest)
        | none => some ((p.1, []), p.2)
      | none => none
    | none => none
  | none => none

/-- A keyword alternation group `(A1|A2|...)` after `LIT\s+`. -/
def matchAlts : List (List Char) → List Char → Option (List Char × List Char)
  | [], _ => none
  | a :: as, s =>
    match dropLit a s with
    | some rest => some (a, rest)
    | none => matchAlts as s

def tryWordAlt (lit : List Char) (alts : List (List Char)) (s : List Char) :
    Option (List Char × List Char) :=
  match dropLit lit s with
  | some r1 =>
    match skipSpaces1 r1 with
    | some r2 => matchAlts alts r2
    | none => none
  | none => none

/-- `@gxp-risk-concern\s+"([^"]*)"` (the quotes are mandatory here). -/
def tryConcern (s : List Char) : Option (List Char × List Char) :=
  match dropLit "@gxp-risk-concern".data s with
  | some r1 => tryDesc r1
  | none => none

/-- `re.search`: try the matcher at each start position, left to right. -/
def scanF {γ : Type} (tm : List Char → Option (γ × List Char)) : List Char → Option γ
  | [] => (tm []).map (fun p => p.1)
  | c :: cs =>
    match tm (c :: cs) with
    | some (g, _) => some g
    | none => scanF tm cs

/-- `re.findall`: all matches, continuing from the end of each match. Every
match of the scanned patterns consumes at least one character, so fuel equal to
the input length never runs out. -/
def scanA {γ : Type} (tm : List Char → Option (γ × List Char)) : Nat → List Char → List γ
  | _, [] => []
  | 0, _ :: _ => []
  | n + 1, c :: cs =>
    match tm (c :: cs) with
    | some (g, rest) => g :: scanA tm n rest
    | none => scanA tm n cs

/-- `match_str.split(',')`. -/
def splitComma (s : List Char) : List (List Char) :=
  s.foldr (fun c (acc : List (List Char)) =>
    match acc with
    | cur :: rest => if c = ',' then [] :: cur :: rest else (c :: cur) :: rest
    | [] => []) [[]]

/-- Python `str.strip()`. -/
def stripWs (s : List Char) : List Char :=
  ((s.dropWhile isSpaceCh).reverse.dropWhile isSpaceCh).reverse

/-- `_parse_id_list(match_str)`. -/
def parseIdListC (g : List Char) : List String :=
  (((splitComma g).map stripWs).filter (fun x => !x.isEmpty)).map String.mk

def trySatisfies : List Char → Option (List Char × List Char) :=
  tryEdgeTag "@gxp-satisfies".data ["REQ".data]

def tryImplements : List Char → Option (List Char × List Char) :=
  tryEdgeTag "@gxp-implements".data ["US".data, "SPEC".data]

def tryVerifies : List Char → Option (List Char × List Char) :=
  tryEdgeTag "@gxp-verifies".data ["SPEC".data]

def tryDerives : List Char → Option (List Char × List Char) :=
  tryEdgeTag "@gxp-derives-from".data ["REQ".data, "US".data, "SPEC".data]

def tryReqLegacy : List Char → Option ((List Char × List Char) × List Char) :=
  tryLegacy "@gxp-req".data ["REQ".data] false

def trySpecLegacy : List Char → Option ((List Char × List Char) × List Char) :=
  tryLegacy "@gxp-spec".data ["SPEC".data] true

def tryTrace (s : List Char) : Option (List Char × List Char) :=
  match dropLit "@trace".data s with
  | some r1 =>
    match skipSpaces1 r1 with
    | some r2 =>
      match matchAltId ["US".data] r2 with
      | some p => some (optExt p)
      | none => none
    | none => none
  | none => none

def tryRisk : List Char → Option (List Char × List Char) :=
  tryWordAlt "@gxp-risk".data ["HIGH".data, "MEDIUM".data, "LOW".data]

def tryTier : List Char → Option (List Char × List Char) :=
  tryWordAlt "@test-type".data ["IQ".data, "OQ".data, "PQ".data]

/-- All `findall` occurrences of a v3 edge tag's group in a file's text. -/
def edgeOccs (tm : List Char → Option (List Char × List Char)) (content : String) :
    List (List Char) :=
  scanA tm content.data.length content.data

/-- `parse_annotations` for a file whose text was read successfully; returns
`none` when no recognized tag occurs. -/
def parseAnns (relPath content : String) : Option Ann :=
  let cs := content.data
  let satisfiesIds := ((scanF trySatisfies cs).map parseIdListC).getD []
  let implementsIds := ((scanF tryImplements cs).map parseIdListC).getD []
  let verifiesIds := ((scanF tryVerifies cs).map parseIdListC).getD []
  let derivesIds := ((scanF tryDerives cs).map parseIdListC).getD []
  let risks := (scanA tryRisk cs.length cs).map String.mk
  let concerns := (scanA tryConcern cs.length cs).map String.mk
  let tiers := (scanA tryTier cs.length cs).map String.mk
  let legacyReqs := (scanA tryReqLegacy cs.length cs).map
    (fun p => ({ id := String.mk p.1, desc := String.mk p.2 } : LegacyRef))
  let legacySpecs := (scanA trySpecLegacy cs.length cs).map
    (fun p => ({ id := String.mk p.1, desc := String.mk p.2 } : LegacyRef))
  let legacyTraces := (scanA tryTrace cs.length cs).map String.mk
  if satisfiesIds.isEmpty && implementsIds.isEmpty && verifiesIds.isEmpty &&
      derivesIds.isEmpty && legacyReqs.isEmpty && legacySpecs.isEmpty &&
      risks.isEmpty && concerns.isEmpty && legacyTraces.isEmpty && tiers.isEmpty then
    none
  else
    some
      { file := relPath
        is_test := isTestFileFn relPath
        satisfies := satisfiesIds
        implements := implementsIds
        verifies := verifiesIds
        derives_from := derivesIds
        risk_levels := risks
        risk_concerns := concerns
        test_types := tiers
        requirements := legacyReqs
        specifications := legacySpecs
        traces := legacyTraces }

/-! ### Specification-side definitions used by the claim theorems -/

/-- Every id a record declares as a relation target (v3 edge-tag targets and
legacy req/spec/trace targets). -/
def declaredTargets (a : Ann) : List String :=
  a.satisfies ++ a.implements ++ a.verifies ++ a.derives_from ++
  a.requirements.map (fun r => r.id) ++ a.specifications.map (fun s => s.id) ++ a.traces

/-- Every node id a record can give rise to: its declared targets and its own
synthetic file node. -/
def mentionedIds (a : Ann) : List String :=
  declaredTargets a ++ [fileNodeId a.file]

/-- The stored risk of a node id (`None` when absent or never assigned). -/
def riskOf (nodes : List (String × Node)) (id : String) : Option String :=
  match lookupN nodes id with
  | some nd => nd.risk
  | none => none

/-- The stored tier set of a node id (empty when absent). -/
def tiersOf (nodes : List (String × Node)) (id : String) : List String :=
  match lookupN nodes id with
  | some nd => nd.tiers
  | none => []

/-- The risk-merge step of `_ensure_node` for one declared (truthy) risk. -/
def riskUpd (acc : Option String) (r : String) : Option String :=
  if r ≠ "" then
    if !truthyOpt acc || riskOrder r > riskOrder (acc.getD "") then some r else acc
  else acc

/-- The risk contributions of one record to node `id`, in `_ensure_node` call
order: the record's first declared risk (`UNKNOWN` when it declares none), once
for each satisfies/implements/verifies target equal to `id` and once for each
file-node ensure on `id`; derives-from targets and legacy req/spec/trace
targets contribute nothing. -/
def touchRisks1 (a : Ann) (id : String) : List String :=
  let r := annRisk a
  let fid := fileNodeId a.file
  (a.satisfies.flatMap (fun s => (if s = id then [r] else []) ++ (if fid = id then [r] else []))) ++
  (a.implements.flatMap (fun s => (if s = id then [r] else []) ++ (if fid = id then [r] else []))) ++
  (a.verifies.flatMap (fun s => (if s = id then [r] else []) ++ (if fid = id then [r] else []))) ++
  (a.requirements.flatMap (fun _ => if fid = id then [r] else [])) ++
  (a.specifications.flatMap (fun _ => if fid = id then [r] else [])) ++
  (a.traces.flatMap (fun _ => if fid = id then [r] else []))

def touchRisks (anns : List Ann) (id : String) : List String :=
  anns.flatMap (fun a => touchRisks1 a id)

/-- Maximum severity of a collection of risk declarations drawn from
HIGH > MEDIUM > LOW > UNKNOWN, independent of declaration order. -/
def sevMaxList (l : List String) : Option String :=
  if memB "HIGH" l then some "HIGH"
  else if memB "MEDIUM" l then some "MEDIUM"
  else if memB "LOW" l then some "LOW"
  else if l.isEmpty then none
  else some "UNKNOWN"

/-- Risk declarations as produced by the `@gxp-risk` pattern. -/
def validRisks (a : Ann) : Prop :=
  ∀ s ∈ a.risk_levels, s = "HIGH" ∨ s = "MEDIUM" ∨ s = "LOW"

/-- Target ids as produced by the tag patterns never carry the reserved
`FILE:` prefix of synthetic file nodes. -/
def noFileIds (a : Ann) : Prop :=
  ∀ id ∈ declaredTargets a, strStarts "FILE:" id = false

/-- Every `FILE:`-prefixed node of a graph is a synthetic file node (phase
`test` or `code`). -/
def filePhaseInv (nodes : List (String × Node)) : Prop :=
  ∀ k nd, lookupN nodes k = some nd → strStarts "FILE:" k = true →
    nd.phase = "test" ∨ nd.phase = "code"

/-! ### Concrete records used by witnesses and counterexamples -/

/-- Scenario C of the specification: a source file with legacy
`@gxp-spec SPEC-002-001 "desc"`, and a test file with legacy `@trace US-002-001`
and `@gxp-spec SPEC-002-001`, tier PQ, risk LOW. -/
def annsC1 : List Ann :=
  [{ file := "src/mod.py", is_test := false, satisfies := [], implements := [], verifies := [],
     derives_from := [], risk_levels := ["LOW"], risk_concerns := [], test_types := [],
     requirements := [], specifications := [{ id := "SPEC-002-001", desc := "desc" }],
     traces := [] },
   { file := "tests/mod_test.py", is_test := true, satisfies := [], implements := [],
     verifies := [], derives_from := [], risk_levels := ["LOW"], risk_concerns := [],
     test_types := ["PQ"], requirements := [],
     specifications := [{ id := "SPEC-002-001", desc := "" }], traces := ["US-002-001"] }]

def c1nd : Node :=
  { phase := "specification", risk := none, files := [], title := some "desc", tiers := [] }

/-- Scenario B of the specification: a source file satisfying `REQ-001` and
implementing `SPEC-001`, and a test file verifying `SPEC-001`. -/
def annsC2w : List Ann :=
  [{ file := "src/b.py", is_test := false, satisfies := ["REQ-001"], implements := ["SPEC-001"],
     verifies := [], derives_from := [], risk_levels := ["HIGH"], risk_concerns := [],
     test_types := [], requirements := [], specifications := [], traces := [] },
   { file := "tests/b_test.py", is_test := true, satisfies := [], implements := [],
     verifies := ["SPEC-001"], derives_from := [], risk_levels := ["HIGH"], risk_concerns := [],
     test_types := ["OQ"], requirements := [], specifications := [], traces := [] }]

def c2p : String × CovRec :=
  ("REQ-001", { risk := some "HIGH", covered := true,
                test_nodes := ["FILE:tests/b_test.py"], reachable_nodes := 4 })

/-- One file declaring `@gxp-risk LOW` and then `@gxp-risk HIGH` together with
`@gxp-satisfies REQ-001`. -/
def annC3ce : Ann :=
  { file := "src/f.py", is_test := false, satisfies := ["REQ-001"], implements := [],
    verifies := [], derives_from := [], risk_levels := ["LOW", "HIGH"], risk_concerns := [],
    test_types := [], requirements := [], specifications := [], traces := [] }

/-- Two files touching `REQ-001`, one LOW and one HIGH. -/
def annsC3w : List Ann :=
  [{ file := "src/g.py", is_test := false, satisfies := ["REQ-001"], implements := [],
     verifies := [], derives_from := [], risk_levels := ["LOW"], risk_concerns := [],
     test_types := [], requirements := [], specifications := [], traces := [] },
   { file := "src/h.py", is_test := false, satisfies := ["REQ-001"], implements := [],
     verifies := [], derives_from := [], risk_levels := ["HIGH"], risk_concerns := [],
     test_types := [], requirements := [], specifications := [], traces := [] }]

def c4content : String := "@gxp-satisfies REQ-001\n@gxp-satisfies REQ-002\n"

def c4wcontent : String := "@gxp-satisfies REQ-001\n"

/-- A file declaring the same specification via implements and verifies, plus a
derives-from target. -/
def annC5ce : Ann :=
  { file := "src/e.py", is_test := false, satisfies := [], implements := ["SPEC-001"],
    verifies := ["SPEC-001"], derives_from := ["REQ-001"], risk_levels := ["HIGH"],
    risk_concerns := [], test_types := [], requirements := [], specifications := [],
    traces := [] }

/-- A file declaring only a derives-from target. -/
def annC5w : Ann :=
  { file := "src/w.py", is_test := false, satisfies := [], implements := [], verifies := [],
    derives_from := ["REQ-001"], risk_levels := ["HIGH"], risk_concerns := [],
    test_types := [], requirements := [], specifications := [], traces := [] }

/-- A test file whose only verification target is a legacy `@trace` tag. -/
def annC6ce : Ann :=
  { file := "tests/t_test.py", is_test := true, satisfies := [], implements := [],
    verifies := [], derives_from := [], risk_levels := ["HIGH"], risk_concerns := [],
    test_types := ["OQ"], requirements := [], specifications := [], traces := ["US-001-001"] }

/-- A HIGH-risk source file whose only relation tag is `@gxp-derives-from`. -/
def annC7ce : Ann :=
  { file := "src/d.py", is_test := false, satisfies := [], implements := [], verifies := [],
    derives_from := ["SPEC-001"], risk_levels := ["HIGH"], risk_concerns := [],
    test_types := [], requirements := [], specifications := [], traces := [] }

/-- A HIGH-risk source file with no relation tags at all. -/
def annC7w : Ann :=
  { file := "src/n.py", is_test := false, satisfies := [], implements := [], verifies := [],
    derives_from := [], risk_levels := ["HIGH"], risk_concerns := [], test_types := [],
    requirements := [], specifications := [], traces := [] }

def c8node : Node :=
  { phase := "requirement", risk := some "HIGH", files := [], title := none, tiers := [] }

def c8nodes : List (String × Node) := [("REQ-009", c8node)]

/-- A source file declaring only a legacy `@gxp-req REQ-001` plus
`@gxp-risk HIGH`, so the requirement node is created without any risk. -/
def annC9 : Ann :=
  { file := "src/c.py", is_test := false, satisfies := [], implements := [], verifies := [],
    derives_from := [], risk_levels := ["HIGH"], risk_concerns := [], test_types := [],
    requirements := [{ id := "REQ-001", desc := "" }], specifications := [], traces := [] }

/-! ### Closed evaluations refuting claims as stated -/

/-- Claim C1, counterexample: in Scenario C the graph builder synthesizes no
`REQ-002` node at all — there is neither a `REQ-002` node nor a `REQ-002`
coverage record, so in particular `REQ-002` is not `covered = true`. -/
theorem c1_counterexample :
    lookupN (buildTraceability annsC1).nodes "REQ-002" = none ∧
    lookupN (buildTraceability annsC1).coverage "REQ-002" = none ∧
    (lookupN (buildTraceability annsC1).nodes "SPEC-002-001").isSome = true := by
  refine ⟨by decide, by decide, by decide⟩

/-- Claim C3, counterexample: a node touched by the declarations LOW and HIGH
in the same file resolves to LOW (only `risk_levels[0]` is used), not HIGH. -/
theorem c3_counterexample :
    riskOf (buildTraceability [annC3ce]).nodes "REQ-001" = some "LOW" ∧
    annC3ce.risk_levels = ["LOW", "HIGH"] ∧ "REQ-001" ∈ annC3ce.satisfies := by
  refine ⟨by decide, by decide, by decide⟩

/-- Claim C4, counterexample: a file with two `@gxp-satisfies` occurrences;
both occurrences are present in the text (the occurrence scan yields both
groups), but the extractor record keeps only the first occurrence's id, so
`REQ-002` does not appear in the record's satisfies list. -/
theorem c4_counterexample :
    ((parseAnns "src/a.py" c4content).map (fun r => r.satisfies)) = some ["REQ-001"] ∧
    (edgeOccs trySatisfies c4content).map parseIdListC = [["REQ-001"], ["REQ-002"]] := by
  refine ⟨by decide, by decide⟩

/-- Claim C5, counterexample: `SPEC-001` is declared by the same file via both
implements and verifies, and two (not exactly one) derives-from edges from
`SPEC-001` to the target `REQ-001` are added. -/
theorem c5_counterexample :
    ((buildTraceability [annC5ce]).edges.filter (fun e =>
      e.typ = "derives_from" && e.fromId = "SPEC-001" && e.toId = "REQ-001")).length = 2 ∧
    "SPEC-001" ∈ annC5ce.implements ∧ "SPEC-001" ∈ annC5ce.verifies ∧
    "REQ-001" ∈ annC5ce.derives_from := by
  refine ⟨by decide, by decide, by decide, by decide⟩

/-- Claim C6, counterexample: a test file whose only verification target is a
legacy `@trace` tag still receives the missing-verification-target ERROR. -/
theorem c6_counterexample :
    annC6ce.traces = ["US-001-001"] ∧
    (⟨annC6ce.file, "ERROR",
      "Test file missing @gxp-verifies (or legacy @gxp-spec) annotation"⟩ : VIssue)
      ∈ validateAnns [annC6ce] := by
  refine ⟨by decide, by decide⟩

/-- Claim C7, counterexample: a HIGH-risk source file declaring none of
satisfies/implements/legacy-req/legacy-spec (only `@gxp-derives-from`)
receives no missing-traceability-edge ERROR — the validator emits no issue at
all for it. -/
theorem c7_counterexample :
    annC7ce.risk_levels = ["HIGH"] ∧ annC7ce.satisfies = [] ∧ annC7ce.implements = [] ∧
    annC7ce.requirements = [] ∧ annC7ce.specifications = [] ∧
    validateAnns [annC7ce] = [] := by
  refine ⟨by decide, by decide, by decide, by decide, by decide, by decide⟩

/-- Claim C9: evaluation of the code at the failing input. The requirement
node created only by a legacy `@gxp-req` tag has no risk assigned (its stored
risk is `None`, not the string `UNKNOWN`), yet the coverage analyzer emits no
"No risk level assigned" WARNING for it and instead proceeds to the further
checks, emitting the no-tests-found ERROR. -/
theorem c9_code_eval :
    (lookupN (buildTraceability [annC9]).nodes "REQ-001").isSome = true ∧
    riskOf (buildTraceability [annC9]).nodes "REQ-001" = none ∧
    (analyzeCoverage defaultMatrix (buildTraceability [annC9]) none).filter
      (fun i => i.requirement = "REQ-001")
      = [⟨"REQ-001", "ERROR", "No test files found for this requirement"⟩] := by
  refine ⟨by decide, by decide, by decide⟩

/-! ### Shared lemmas -/

theorem memB_iff (x : String) (l : List String) : memB x l = true ↔ x ∈ l := by
  induction l with
  | nil => simp [memB]
  | cons y ys ih => by_cases h : x = y <;> simp [memB, h, ih]

theorem lookupN_updFst (nodes : List (String × Node)) (nid : String) (g : Node → Node)
    (k : String) :
    lookupN (updFst nodes nid g) k =
      if k = nid then (lookupN nodes nid).map g else lookupN nodes k := by
  induction nodes with
  | nil => by_cases h : k = nid <;> simp [updFst, lookupN, h]
  | cons p rest ih =>
    obtain ⟨k0, v⟩ := p
    by_cases h0 : k0 = nid
    · subst h0
      by_cases hk : k = k0
      · subst hk; simp [updFst, lookupN]
      · have hk' : ¬k0 = k := fun h => hk h.symm
        simp [updFst, lookupN, hk, hk']
    · by_cases hk : k = k0
      · subst hk
        simp [updFst, lookupN, h0]
      · have hk' : ¬k0 = k := fun h => hk h.symm
        simp [updFst, lookupN, h0, hk', ih]

theorem lookupN_append (l1 l2 : List (String × Node)) (k : String) :
    lookupN (l1 ++ l2) k = (lookupN l1 k).or (lookupN l2 k) := by
  induction l1 with
  | nil => simp [lookupN]
  | cons p rest ih =>
    obtain ⟨k0, v⟩ := p
    by_cases hk : k0 = k <;> simp [lookupN, hk, ih]

/-- Master description of `_ensure_node`: the target id's entry becomes the
attribute-merge of the previous entry (or of a fresh node), every other
entry is untouched. -/
theorem lookupN_ensure (nodes : List (String × Node)) (nid ph : String)
    (r t f : Option String) (k : String) :
    lookupN (ensureNode nodes nid ph r t f) k =
      if k = nid then some (nodeUpd r t f ((lookupN nodes nid).getD (newNode ph r t)))
      else lookupN nodes k := by
  unfold ensureNode
  cases h : lookupN nodes nid with
  | some v =>
    rw [lookupN_updFst]
    by_cases hk : k = nid <;> simp [hk, h]
  | none =>
    rw [lookupN_updFst]
    by_cases hk : k = nid
    · subst hk
      simp [lookupN_append, h, lookupN]
    · simp only [if_neg hk, lookupN_append]
      have hn : ¬nid = k := fun hh => hk hh.symm
      have hsingle : lookupN [(nid, newNode ph r t)] k = none := by simp [lookupN, hn]
      rw [hsingle]
      cases lookupN nodes k <;> simp

theorem lookupN_addTier (nodes : List (String × Node)) (fid t k : String) :
    lookupN (addTier nodes fid t) k =
      if k = fid then (lookupN nodes fid).map (tierUpd t) else lookupN nodes k :=
  lookupN_updFst nodes fid (tierUpd t) k

theorem riskMerge_phase (r : Option String) (nd : Node) :
    (riskMerge r nd).phase = nd.phase := by
  unfold riskMerge; split_ifs <;> rfl

theorem riskMerge_tiers (r : Option String) (nd : Node) :
    (riskMerge r nd).tiers = nd.tiers := by
  unfold riskMerge; split_ifs <;> rfl

theorem riskMerge_risk (r : Option String) (nd : Node) :
    (riskMerge r nd).risk =
      match r with
      | none => nd.risk
      | some rr => riskUpd nd.risk rr := by
  cases r with
  | none => simp [riskMerge, truthyOpt]
  | some rr =>
    by_cases hrr : rr = "" <;> simp [riskMerge, riskUpd, truthyOpt, hrr] <;> split_ifs <;> rfl

theorem titleMerge_phase (t : Option String) (nd : Node) :
    (titleMerge t nd).phase = nd.phase := by
  unfold titleMerge; split_ifs <;> rfl

theorem titleMerge_tiers (t : Option String) (nd : Node) :
    (titleMerge t nd).tiers = nd.tiers := by
  unfold titleMerge; split_ifs <;> rfl

theorem titleMerge_risk (t : Option String) (nd : Node) :
    (titleMerge t nd).risk = nd.risk := by
  unfold titleMerge; split_ifs <;> rfl

theorem fileMerge_phase (f : Option String) (nd : Node) :
    (fileMerge f nd).phase = nd.phase := by
  cases f with
  | none => rfl
  | some f0 => simp only [fileMerge]; split_ifs <;> rfl

theorem fileMerge_tiers (f : Option String) (nd : Node) :
    (fileMerge f nd).tiers = nd.tiers := by
  cases f with
  | none => rfl
  | some f0 => simp only [fileMerge]; split_ifs <;> rfl

theorem fileMerge_risk (f : Option String) (nd : Node) :
    (fileMerge f nd).risk = nd.risk := by
  cases f with
  | none => rfl
  | some f0 => simp only [fileMerge]; split_ifs <;> rfl

theorem nodeUpd_phase (r t f : Option String) (nd : Node) :
    (nodeUpd r t f nd).phase = nd.phase := by
  unfold nodeUpd; rw [fileMerge_phase, titleMerge_phase, riskMerge_phase]

theorem nodeUpd_tiers (r t f : Option String) (nd : Node) :
    (nodeUpd r t f nd).tiers = nd.tiers := by
  unfold nodeUpd; rw [fileMerge_tiers, titleMerge_tiers, riskMerge_tiers]

theorem nodeUpd_risk (r t f : Option String) (nd : Node) :
    (nodeUpd r t f nd).risk =
      match r with
      | none => nd.risk
      | some rr => riskUpd nd.risk rr := by
  unfold nodeUpd; rw [fileMerge_risk, titleMerge_risk, riskMerge_risk]

theorem tierUpd_phase (t : String) (nd : Node) : (tierUpd t nd).phase = nd.phase := by
  unfold tierUpd; split_ifs <;> rfl

theorem tierUpd_risk (t : String) (nd : Node) : (tierUpd t nd).risk = nd.risk := by
  unfold tierUpd; split_ifs <;> rfl

theorem updFst_keys (nodes : List (String × Node)) (nid : String) (g : Node → Node) :
    (updFst nodes nid g).map Prod.fst = nodes.map Prod.fst := by
  induction nodes with
  | nil => rfl
  | cons p rest ih =>
    obtain ⟨k0, v⟩ := p
    by_cases h0 : k0 = nid <;> simp [updFst, h0, ih]

theorem lookupN_eq_none_iff (nodes : List (String × Node)) (k : String) :
    lookupN nodes k = none ↔ k ∉ nodes.map Prod.fst := by
  induction nodes with
  | nil => simp [lookupN]
  | cons p rest ih =>
    obtain ⟨k0, v⟩ := p
    by_cases h0 : k0 = k
    · subst h0; simp [lookupN]
    · have h0' : ¬k = k0 := fun h => h0 h.symm
      simp [lookupN, h0, h0', ih]

theorem lookupN_of_mem_nodup (nodes : List (String × Node)) (k : String) (v : Node)
    (hnd : (nodes.map Prod.fst).Nodup) (hm : (k, v) ∈ nodes) : lookupN nodes k = some v := by
  induction nodes with
  | nil => simp at hm
  | cons p rest ih =>
    obtain ⟨k0, v0⟩ := p
    simp only [List.map_cons, List.nodup_cons] at hnd
    rcases List.mem_cons.mp hm with h | h
    · injection h with h1 h2
      subst h1; subst h2
      simp [lookupN]
    · by_cases h0 : k0 = k
      · subst h0
        exact absurd (List.mem_map.mpr ⟨(k0, v), h, rfl⟩) hnd.1
      · simp only [lookupN, if_neg h0]
        exact ih hnd.2 h

theorem ensure_keys (nodes : List (String × Node)) (nid ph : String) (r t f : Option String) :
    (ensureNode nodes nid ph r t f).map Prod.fst =
      if (lookupN nodes nid).isSome then nodes.map Prod.fst
      else nodes.map Prod.fst ++ [nid] := by
  unfold ensureNode
  cases h : lookupN nodes nid <;> simp [h, updFst_keys]

theorem ensure_keys_nodup (nodes : List (String × Node)) (nid ph : String)
    (r t f : Option String) (hnd : (nodes.map Prod.fst).Nodup) :
    ((ensureNode nodes nid ph r t f).map Prod.fst).Nodup := by
  rw [ensure_keys]
  cases h : lookupN nodes nid with
  | some v => simpa using hnd
  | none =>
    have hn : nid ∉ nodes.map Prod.fst := (lookupN_eq_none_iff nodes nid).mp h
    simp only [Option.isSome_none, Bool.false_eq_true, if_false]
    refine List.Nodup.append hnd (List.nodup_singleton nid) ?_
    intro x hx hx2
    rw [List.mem_singleton] at hx2
    exact hn (hx2 ▸ hx)

theorem addTier_keys (nodes : List (String × Node)) (fid t : String) :
    (addTier nodes fid t).map Prod.fst = nodes.map Prod.fst :=
  updFst_keys nodes fid (tierUpd t)

theorem riskOf_ensure (nodes : List (String × Node)) (nid ph : String)
    (r t f : Option String) (k : String) (hval : ∀ rr, r = some rr → rr ≠ "") :
    riskOf (ensureNode nodes nid ph r t f) k =
      if k = nid then
        (match r with
        | none => riskOf nodes k
        | some rr => riskUpd (riskOf nodes k) rr)
      else riskOf nodes k := by
  unfold riskOf
  rw [lookupN_ensure]
  by_cases hk : k = nid
  · subst hk
    rw [if_pos rfl, if_pos rfl]
    cases h : lookupN nodes k with
    | some v =>
      simp only [Option.getD_some, nodeUpd_risk]
      cases r <;> rfl
    | none =>
      simp only [Option.getD_none, nodeUpd_risk]
      cases r with
      | none => rfl
      | some rr =>
        have hrr : rr ≠ "" := hval rr rfl
        simp [newNode, riskUpd, truthyOpt, hrr]
  · rw [if_neg hk, if_neg hk]

theorem tiersOf_ensure (nodes : List (String × Node)) (nid ph : String)
    (r t f : Option String) (k : String) :
    tiersOf (ensureNode nodes nid ph r t f) k = tiersOf nodes k := by
  unfold tiersOf
  rw [lookupN_ensure]
  by_cases hk : k = nid
  · subst hk
    cases h : lookupN nodes k <;> simp [h, nodeUpd_tiers, newNode]
  · simp [hk]

theorem tiersOf_addTier_ne (nodes : List (String × Node)) (fid t k : String) (h : k ≠ fid) :
    tiersOf (addTier nodes fid t) k = tiersOf nodes k := by
  unfold tiersOf
  rw [lookupN_addTier, if_neg h]

/-- Fold preservation of a state property along one of the builder's loops. -/
theorem foldl_pres {β : Type} (step : GState → β → GState) (Q : GState → Prop) (l : List β)
    (h : ∀ st b, b ∈ l → Q st → Q (step st b)) :
    ∀ st, Q st → Q (l.foldl step st) := by
  induction l with
  | nil => intro st hq; simpa using hq
  | cons b bs ih =>
    intro st hq
    simp only [List.foldl_cons]
    exact ih (fun st b hb => h st b (List.mem_cons_of_mem _ hb)) _
      (h st b (List.mem_cons_self b bs) hq)

/-- The edges appended by one of the builder's loops depend only on the loop
inputs, never on the accumulated state. -/
theorem foldl_edges {β : Type} (step : GState → β → GState) (eF : β → List Edge)
    (h : ∀ st b, (step st b).2 = st.2 ++ eF b) (l : List β) :
    ∀ st : GState, (l.foldl step st).2 = st.2 ++ l.flatMap eF := by
  induction l with
  | nil => intro st; simp
  | cons b bs ih =>
    intro st
    simp only [List.foldl_cons, List.flatMap_cons]
    rw [ih, h, List.append_assoc]

theorem orphan_node_aux (edges : List Edge) (p : String × Node) :
    ∀ i ∈ orphanIssuesFor edges p, i.node = p.1 ∧ strStarts "FILE:" p.1 = false := by
  intro i hi
  unfold orphanIssuesFor at hi
  by_cases hf : strStarts "FILE:" p.1 = true
  · simp [hf] at hi
  · rw [Bool.not_eq_true] at hf
    rw [if_neg (by simp [hf])] at hi
    unfold hasDegrees at hi
    split_ifs at hi <;>
      first
      | (simp only [List.mem_singleton] at hi; subst hi; exact ⟨rfl, hf⟩)
      | simp at hi

theorem ensure_isSome_self (nodes : List (String × Node)) (nid ph : String)
    (r t f : Option String) :
    (lookupN (ensureNode nodes nid ph r t f) nid).isSome = true := by
  rw [lookupN_ensure]; simp

theorem ensure_isSome_pres (nodes : List (String × Node)) (nid ph : String)
    (r t f : Option String) (k : String) (h : (lookupN nodes k).isSome = true) :
    (lookupN (ensureNode nodes nid ph r t f) k).isSome = true := by
  rw [lookupN_ensure]; by_cases hk : k = nid <;> simp [hk, h]

theorem addTier_isSome_pres (nodes : List (String × Node)) (fid t k : String)
    (h : (lookupN nodes k).isSome = true) :
    (lookupN (addTier nodes fid t) k).isSome = true := by
  rw [lookupN_addTier]
  by_cases hk : k = fid
  · subst hk
    cases h2 : lookupN nodes k with
    | some v => simp
    | none => rw [h2] at h; simp at h
  · simp [hk, h]

theorem tierFold_isSome_pres (fid : String) (ts : List String) (k : String) :
    ∀ ns : List (String × Node), (lookupN ns k).isSome = true →
      (lookupN (ts.foldl (fun ns t => addTier ns fid t) ns) k).isSome = true := by
  induction ts with
  | nil => intro ns h; simpa using h
  | cons t ts ih =>
    intro ns h
    exact ih _ (addTier_isSome_pres ns fid t k h)

theorem reqLoop_isSome_pres (a : Ann) (st : GState) (k : String)
    (h : (lookupN st.1 k).isSome = true) :
    (lookupN (reqLoop a st).1 k).isSome = true :=
  foldl_pres (reqStep a) (fun st => (lookupN st.1 k).isSome = true) a.requirements
    (fun _ _ _ hq => ensure_isSome_pres _ _ _ _ _ _ _ (ensure_isSome_pres _ _ _ _ _ _ _ hq))
    st h

theorem specLoop_isSome_pres (a : Ann) (st : GState) (k : String)
    (h : (lookupN st.1 k).isSome = true) :
    (lookupN (specLoop a st).1 k).isSome = true :=
  foldl_pres (specStep a) (fun st => (lookupN st.1 k).isSome = true) a.specifications
    (fun _ _ _ hq => ensure_isSome_pres _ _ _ _ _ _ _ (ensure_isSome_pres _ _ _ _ _ _ _ hq))
    st h

theorem traceLoop_isSome_pres (a : Ann) (st : GState) (k : String)
    (h : (lookupN st.1 k).isSome = true) :
    (lookupN (traceLoop a st).1 k).isSome = true :=
  foldl_pres (traceStep a) (fun st => (lookupN st.1 k).isSome = true) a.traces
    (fun _ _ _ hq => ensure_isSome_pres _ _ _ _ _ _ _ (ensure_isSome_pres _ _ _ _ _ _ _ hq))
    st h

theorem derFold_creates (a : Ann) (T : String) :
    ∀ (l : List String) (st : GState), T ∈ l →
      (lookupN (l.foldl (derStep a) st).1 T).isSome = true := by
  intro l
  induction l with
  | nil => intro st h; simp at h
  | cons d ds ih =>
    intro st h
    simp only [List.foldl_cons]
    rcases List.mem_cons.mp h with h | h
    · subst h
      exact foldl_pres (derStep a) (fun st => (lookupN st.1 T).isSome = true) ds
        (fun st b _ hq => ensure_isSome_pres _ _ _ _ _ _ _ hq) _
        (ensure_isSome_self _ _ _ _ _ _)
    · exact ih (derStep a st d) h

theorem derLoop_creates (a : Ann) (st : GState) (T : String) (hT : T ∈ a.derives_from) :
    (lookupN (derLoop a st).1 T).isSome = true :=
  derFold_creates a T a.derives_from st hT

/-! ### Claim C5: derives-from edges -/

theorem satLoop_edges (a : Ann) (st : GState) :
    (satLoop a st).2 = st.2 ++ a.satisfies.flatMap
      (fun rid => [(⟨fileNodeId a.file, rid, "satisfies", a.file⟩ : Edge)]) :=
  foldl_edges _ _ (fun _ _ => rfl) a.satisfies st

theorem implLoop_edges (a : Ann) (st : GState) :
    (implLoop a st).2 = st.2 ++ a.implements.flatMap
      (fun iid => [(⟨fileNodeId a.file, iid, "implements", a.file⟩ : Edge)]) :=
  foldl_edges _ _ (fun _ _ => rfl) a.implements st

theorem verLoop_edges (a : Ann) (st : GState) :
    (verLoop a st).2 = st.2 ++ a.verifies.flatMap
      (fun vid => [(⟨fileNodeId a.file, vid, "verifies", a.file⟩ : Edge)]) :=
  foldl_edges _ _ (fun _ _ => rfl) a.verifies st

theorem derLoop_edges (a : Ann) (st : GState) :
    (derLoop a st).2 = st.2 ++ a.derives_from.flatMap
      (fun did => (ownIds a).map (fun own => (⟨own, did, "derives_from", a.file⟩ : Edge))) :=
  foldl_edges _ _ (fun _ _ => rfl) a.derives_from st

theorem reqLoop_edges (a : Ann) (st : GState) :
    (reqLoop a st).2 = st.2 ++ a.requirements.flatMap
      (fun r => [(⟨fileNodeId a.file, r.id, "satisfies", a.file⟩ : Edge)]) :=
  foldl_edges _ _ (fun _ _ => rfl) a.requirements st

theorem specLoop_edges (a : Ann) (st : GState) :
    (specLoop a st).2 = st.2 ++ a.specifications.flatMap
      (fun s => [(⟨fileNodeId a.file, s.id,
        if a.is_test then "verifies" else "implements", a.file⟩ : Edge)]) :=
  foldl_edges _ _ (fun _ _ => rfl) a.specifications st

theorem traceLoop_edges (a : Ann) (st : GState) :
    (traceLoop a st).2 = st.2 ++ a.traces.flatMap
      (fun us => [(⟨fileNodeId a.file, us, "verifies", a.file⟩ : Edge)]) :=
  foldl_edges _ _ (fun _ _ => rfl) a.traces st

theorem filter_flatMap_singleton_nil {β : Type} (g : β → Edge) (p : Edge → Bool)
    (hp : ∀ b, p (g b) = false) (l : List β) :
    (l.flatMap (fun b => [g b])).filter p = [] := by
  induction l with
  | nil => rfl
  | cons b bs ih =>
    simp only [List.flatMap_cons, List.filter_append, ih, List.append_nil,
      List.filter_singleton, hp b]
    simp

theorem der_filter_inner (X T f did : String) (own : List String) :
    ((own.map (fun o => (⟨o, did, "derives_from", f⟩ : Edge))).filter
      (fun e => e.typ = "derives_from" && e.fromId = X && e.toId = T)).length =
    if did = T then own.count X else 0 := by
  induction own with
  | nil => simp
  | cons o os ih =>
    simp only [List.map_cons, List.filter_cons]
    by_cases hT : did = T
    · subst hT
      simp only [if_pos rfl] at ih ⊢
      by_cases hX : o = X
      · simp [hX, ih, List.count_cons]
      · have hX' : ¬X = o := fun h => hX h.symm
        simp [hX, hX', ih, List.count_cons]
    · simp [hT, ih]

theorem der_filter_outer (X T f : String) (own : List String) (ds : List String) :
    ((ds.flatMap (fun did => own.map (fun o => (⟨o, did, "derives_from", f⟩ : Edge)))).filter
      (fun e => e.typ = "derives_from" && e.fromId = X && e.toId = T)).length =
    ds.count T * own.count X := by
  induction ds with
  | nil => simp
  | cons d ds ih =>
    simp only [List.flatMap_cons, List.filter_append, List.length_append, ih, der_filter_inner]
    by_cases hT : d = T
    · have hb : (d == T) = true := by simp [hT]
      rw [if_pos hT, List.count_cons]
      simp only [hb, if_true]
      ring
    · have hb : (d == T) = false := by
        simp only [beq_eq_false_iff_ne]
        exact hT
      rw [if_neg hT, List.count_cons]
      simp only [hb, Bool.false_eq_true, if_false]
      simp

/-- Claim C5, amended: for every annotation record, one `derives_from` edge
from X to T is produced per occurrence of X in the concatenated
satisfies/implements/verifies lists and per occurrence of T in the
derives-from list (an id declared through two tags yields two edges); when the
record declares no satisfies/implements/verifies id, no derives-from edge is
produced at all, and each derives-from target still exists as a node. -/
theorem c5_derives_edges (a : Ann) (X T : String) :
    (((buildTraceability [a]).edges).filter
      (fun e => e.typ = "derives_from" && e.fromId = X && e.toId = T)).length =
      a.derives_from.count T * (ownIds a).count X ∧
    (T ∈ a.derives_from → (lookupN (buildTraceability [a]).nodes T).isSome = true) := by
  constructor
  · have hedges : (buildTraceability [a]).edges =
        a.satisfies.flatMap
          (fun rid => [(⟨fileNodeId a.file, rid, "satisfies", a.file⟩ : Edge)]) ++
        (a.implements.flatMap
          (fun iid => [(⟨fileNodeId a.file, iid, "implements", a.file⟩ : Edge)]) ++
        (a.verifies.flatMap
          (fun vid => [(⟨fileNodeId a.file, vid, "verifies", a.file⟩ : Edge)]) ++
        (a.derives_from.flatMap
          (fun did => (ownIds a).map (fun own => (⟨own, did, "derives_from", a.file⟩ : Edge))) ++
        (a.requirements.flatMap
          (fun r => [(⟨fileNodeId a.file, r.id, "satisfies", a.file⟩ : Edge)]) ++
        (a.specifications.flatMap
          (fun s => [(⟨fileNodeId a.file, s.id,
            if a.is_test then "verifies" else "implements", a.file⟩ : Edge)]) ++
        a.traces.flatMap
          (fun us => [(⟨fileNodeId a.file, us, "verifies", a.file⟩ : Edge)])))))) := by
      show (processAnn a ([], [])).2 = _
      unfold processAnn
      rw [traceLoop_edges, specLoop_edges, reqLoop_edges, derLoop_edges, verLoop_edges,
        implLoop_edges, satLoop_edges]
      simp [List.append_assoc]
    rw [hedges]
    simp only [List.filter_append, List.length_append]
    rw [filter_flatMap_singleton_nil _ _ (fun b => by simp),
      filter_flatMap_singleton_nil _ _ (fun b => by simp),
      filter_flatMap_singleton_nil _ _ (fun b => by simp),
      filter_flatMap_singleton_nil _ _ (fun b => by simp),
      filter_flatMap_singleton_nil _ _ (fun b => by by_cases ht : a.is_test = true <;> simp [ht]),
      filter_flatMap_singleton_nil _ _ (fun b => by simp),
      der_filter_outer]
    simp
  · intro hT
    show (lookupN (processAnn a ([], [])).1 T).isSome = true
    unfold processAnn
    have hder : (lookupN (derLoop a (verLoop a (implLoop a (satLoop a ([], []))))).1 T).isSome
        = true := derLoop_creates a _ T hT
    exact traceLoop_isSome_pres a _ T
      (specLoop_isSome_pres a _ T (reqLoop_isSome_pres a _ T hder))

/-- Claim C5, witness: a record declaring only a derives-from target produces
no derives-from edge (the products of occurrence counts are zero), yet the
target still becomes a node. -/
theorem c5_witness :
    (((buildTraceability [annC5w]).edges).filter
      (fun e => e.typ = "derives_from" && e.fromId = "SPEC-001" && e.toId = "REQ-001")).length =
      annC5w.derives_from.count "REQ-001" * (ownIds annC5w).count "SPEC-001" ∧
    (lookupN (buildTraceability [annC5w]).nodes "REQ-001").isSome = true :=
  ⟨(c5_derives_edges annC5w "SPEC-001" "REQ-001").1,
   (c5_derives_edges annC5w "SPEC-001" "REQ-001").2 (by decide)⟩

/-! ### Claim C4: extractor keeps only the first occurrence of a v3 edge tag -/

theorem scanF_eq_head {γ : Type} (tm : List Char → Option (γ × List Char))
    (htm : tm [] = none) :
    ∀ s : List Char, scanF tm s = (scanA tm s.length s).head? := by
  intro s
  induction s with
  | nil => simp [scanF, scanA, htm]
  | cons c cs ih =>
    show scanF tm (c :: cs) = (scanA tm (cs.length + 1) (c :: cs)).head?
    cases h : tm (c :: cs) with
    | some p =>
      obtain ⟨g, rest⟩ := p
      simp [scanF, scanA, h]
    | none =>
      simp [scanF, scanA, h, ih]

/-- Claim C4, amended: the extractor record keeps, for each current-generation
edge tag, exactly the comma-separated ids of the FIRST occurrence of that tag
in the text (later occurrences are dropped), while every occurrence of the
legacy and common tags is collected. -/
theorem c4_first_occurrence (relPath content : String) (r : Ann)
    (h : parseAnns relPath content = some r) :
    r.satisfies = (((edgeOccs trySatisfies content).head?).map parseIdListC).getD [] ∧
    r.implements = (((edgeOccs tryImplements content).head?).map parseIdListC).getD [] ∧
    r.verifies = (((edgeOccs tryVerifies content).head?).map parseIdListC).getD [] ∧
    r.derives_from = (((edgeOccs tryDerives content).head?).map parseIdListC).getD [] ∧
    r.requirements = (scanA tryReqLegacy content.data.length content.data).map
      (fun p => ({ id := String.mk p.1, desc := String.mk p.2 } : LegacyRef)) ∧
    r.specifications = (scanA trySpecLegacy content.data.length content.data).map
      (fun p => ({ id := String.mk p.1, desc := String.mk p.2 } : LegacyRef)) ∧
    r.traces = (scanA tryTrace content.data.length content.data).map String.mk ∧
    r.risk_levels = (scanA tryRisk content.data.length content.data).map String.mk ∧
    r.test_types = (scanA tryTier content.data.length content.data).map String.mk := by
  simp only [parseAnns] at h
  split at h
  · exact absurd h (by simp)
  · injection h with h2
    subst h2
    refine ⟨?_, ?_, ?_, ?_, rfl, rfl, rfl, rfl, rfl⟩
    · show ((scanF trySatisfies content.data).map parseIdListC).getD [] = _
      rw [scanF_eq_head trySatisfies (by decide) content.data]
      rfl
    · show ((scanF tryImplements content.data).map parseIdListC).getD [] = _
      rw [scanF_eq_head tryImplements (by decide) content.data]
      rfl
    · show ((scanF tryVerifies content.data).map parseIdListC).getD [] = _
      rw [scanF_eq_head tryVerifies (by decide) content.data]
      rfl
    · show ((scanF tryDerives content.data).map parseIdListC).getD [] = _
      rw [scanF_eq_head tryDerives (by decide) content.data]
      rfl

/-- Claim C4, witness: on a file with a single `@gxp-satisfies` occurrence the
record's satisfies list is that occurrence's id list. -/
theorem c4_witness :
    ∃ r, parseAnns "src/a.py" c4wcontent = some r ∧
      r.satisfies = (((edgeOccs trySatisfies c4wcontent).head?).map parseIdListC).getD [] :=
  ⟨_, rfl, (c4_first_occurrence "src/a.py" c4wcontent _ rfl).1⟩

/-! ### Claim C1: no hierarchical back-filling -/

theorem mem_lookupN_isSome (nodes : List (String × Node)) (k : String) (v : Node)
    (h : (k, v) ∈ nodes) : (lookupN nodes k).isSome = true := by
  induction nodes with
  | nil => simp at h
  | cons p rest ih =>
    obtain ⟨k0, v0⟩ := p
    by_cases h0 : k0 = k
    · simp [lookupN, h0]
    · simp only [lookupN, if_neg h0]
      rcases List.mem_cons.mp h with h | h
      · injection h with h1 h2; exact absurd h1.symm h0
      · exact ih h

theorem ensure_isSome_inv (nodes : List (String × Node)) (nid ph : String)
    (r t f : Option String) (k : String)
    (h : (lookupN (ensureNode nodes nid ph r t f) k).isSome = true) :
    (lookupN nodes k).isSome = true ∨ k = nid := by
  by_cases hk : k = nid
  · exact Or.inr hk
  · rw [lookupN_ensure, if_neg hk] at h
    exact Or.inl h

theorem addTier_isSome_eq (nodes : List (String × Node)) (fid t k : String) :
    (lookupN (addTier nodes fid t) k).isSome = (lookupN nodes k).isSome := by
  rw [lookupN_addTier]
  by_cases hk : k = fid
  · subst hk; cases lookupN nodes k <;> simp
  · simp [hk]

theorem tierFold_isSome_eq (a : Ann) (k : String) :
    ∀ ns : List (String × Node),
      (lookupN (tierFold a ns) k).isSome = (lookupN ns k).isSome := by
  unfold tierFold
  generalize fileNodeId a.file = fid
  induction a.test_types with
  | nil => intro ns; rfl
  | cons t ts ih =>
    intro ns
    simp only [List.foldl_cons]
    rw [ih, addTier_isSome_eq]

/-- Keys created by one of the builder's loops come from the loop's own ids. -/
theorem foldl_keys {β : Type} (step : GState → β → GState) (S : β → String → Prop)
    (l : List β)
    (hstep : ∀ st b k, (lookupN (step st b).1 k).isSome = true →
      (lookupN st.1 k).isSome = true ∨ S b k) :
    ∀ st k, (lookupN (l.foldl step st).1 k).isSome = true →
      (lookupN st.1 k).isSome = true ∨ ∃ b ∈ l, S b k := by
  induction l with
  | nil => intro st k h; exact Or.inl h
  | cons b bs ih =>
    intro st k h
    simp only [List.foldl_cons] at h
    rcases ih _ k h with h2 | ⟨b2, hb2, hs⟩
    · rcases hstep st b k h2 with h3 | hs
      · exact Or.inl h3
      · exact Or.inr ⟨b, List.mem_cons_self b bs, hs⟩
    · exact Or.inr ⟨b2, List.mem_cons_of_mem _ hb2, hs⟩

theorem processAnn_keys (a : Ann) (st : GState) (k : String)
    (h : (lookupN (processAnn a st).1 k).isSome = true) :
    (lookupN st.1 k).isSome = true ∨ k ∈ mentionedIds a := by
  unfold processAnn at h
  have htr := foldl_keys (traceStep a) (fun us k => k = us ∨ k = fileNodeId a.file) a.traces
    (fun st b k hk => by
      rcases ensure_isSome_inv _ _ _ _ _ _ _ hk with hk2 | hk2
      · rcases ensure_isSome_inv _ _ _ _ _ _ _ hk2 with hk3 | hk3
        · exact Or.inl hk3
        · exact Or.inr (Or.inl hk3)
      · exact Or.inr (Or.inr hk2)) _ k h
  rcases htr with h | ⟨b, hb, (rfl | rfl)⟩
  rotate_left
  · exact Or.inr (by simp [mentionedIds, declaredTargets]; tauto)
  · exact Or.inr (by simp [mentionedIds])
  have hsp := foldl_keys (specStep a) (fun s k => k = s.id ∨ k = fileNodeId a.file)
    a.specifications
    (fun st b k hk => by
      rcases ensure_isSome_inv _ _ _ _ _ _ _ hk with hk2 | hk2
      · rcases ensure_isSome_inv _ _ _ _ _ _ _ hk2 with hk3 | hk3
        · exact Or.inl hk3
        · exact Or.inr (Or.inl hk3)
      · exact Or.inr (Or.inr hk2)) _ k h
  rcases hsp with h | ⟨b, hb, (rfl | rfl)⟩
  rotate_left
  · have hm : b.id ∈ a.specifications.map (fun s => s.id) := List.mem_map.mpr ⟨b, hb, rfl⟩
    exact Or.inr (by simp only [mentionedIds, declaredTargets, List.mem_append]; tauto)
  · exact Or.inr (by simp [mentionedIds])
  have hrq := foldl_keys (reqStep a) (fun r k => k = r.id ∨ k = fileNodeId a.file)
    a.requirements
    (fun st b k hk => by
      rcases ensure_isSome_inv _ _ _ _ _ _ _ hk with hk2 | hk2
      · rcases ensure_isSome_inv _ _ _ _ _ _ _ hk2 with hk3 | hk3
        · exact Or.inl hk3
        · exact Or.inr (Or.inl hk3)
      · exact Or.inr (Or.inr hk2)) _ k h
  rcases hrq with h | ⟨b, hb, (rfl | rfl)⟩
  rotate_left
  · have hm : b.id ∈ a.requirements.map (fun r => r.id) := List.mem_map.mpr ⟨b, hb, rfl⟩
    exact Or.inr (by simp only [mentionedIds, declaredTargets, List.mem_append]; tauto)
  · exact Or.inr (by simp [mentionedIds])
  have hdr := foldl_keys (derStep a) (fun did k => k = did) a.derives_from
    (fun st b k hk => ensure_isSome_inv _ _ _ _ _ _ _ hk) _ k h
  rcases hdr with h | ⟨b, hb, rfl⟩
  rotate_left
  · exact Or.inr (by simp [mentionedIds, declaredTargets]; tauto)
  have hvr := foldl_keys (verStep a) (fun vid k => k = vid ∨ k = fileNodeId a.file) a.verifies
    (fun st b k hk => by
      rw [show (verStep a st b).1 = tierFold a (ensureNode
        (ensureNode st.1 b "specification" (some (annRisk a)) none none)
        (fileNodeId a.file) (filePhase a) (some (annRisk a)) none (some a.file)) from rfl,
        tierFold_isSome_eq] at hk
      rcases ensure_isSome_inv _ _ _ _ _ _ _ hk with hk2 | hk2
      · rcases ensure_isSome_inv _ _ _ _ _ _ _ hk2 with hk3 | hk3
        · exact Or.inl hk3
        · exact Or.inr (Or.inl hk3)
      · exact Or.inr (Or.inr hk2)) _ k h
  rcases hvr with h | ⟨b, hb, (rfl | rfl)⟩
  rotate_left
  · exact Or.inr (by simp [mentionedIds, declaredTargets]; tauto)
  · exact Or.inr (by simp [mentionedIds])
  have him := foldl_keys (implStep a) (fun iid k => k = iid ∨ k = fileNodeId a.file)
    a.implements
    (fun st b k hk => by
      rcases ensure_isSome_inv _ _ _ _ _ _ _ hk with hk2 | hk2
      · rcases ensure_isSome_inv _ _ _ _ _ _ _ hk2 with hk3 | hk3
        · exact Or.inl hk3
        · exact Or.inr (Or.inl hk3)
      · exact Or.inr (Or.inr hk2)) _ k h
  rcases him with h | ⟨b, hb, (rfl | rfl)⟩
  rotate_left
  · exact Or.inr (by simp [mentionedIds, declaredTargets]; tauto)
  · exact Or.inr (by simp [mentionedIds])
  have hst := foldl_keys (satStep a) (fun rid k => k = rid ∨ k = fileNodeId a.file)
    a.satisfies
    (fun st b k hk => by
      rcases ensure_isSome_inv _ _ _ _ _ _ _ hk with hk2 | hk2
      · rcases ensure_isSome_inv _ _ _ _ _ _ _ hk2 with hk3 | hk3
        · exact Or.inl hk3
        · exact Or.inr (Or.inl hk3)
      · exact Or.inr (Or.inr hk2)) _ k h
  rcases hst with h | ⟨b, hb, (rfl | rfl)⟩
  rotate_left
  · exact Or.inr (by simp [mentionedIds, declaredTargets]; tauto)
  · exact Or.inr (by simp [mentionedIds])
  exact Or.inl h

/-- Claim C1, amended: the graph builder performs no hierarchical
back-filling — every node id of the built graph is either a declared target id
of some record or the synthetic file-node id of a record; no REQ/US id is ever
derived from a specification id's numeric prefix. -/
theorem c1_no_backfill (anns : List Ann) (nid : String) (nd : Node)
    (h : (nid, nd) ∈ (buildTraceability anns).nodes) :
    ∃ a ∈ anns, nid ∈ mentionedIds a := by
  have hs : (lookupN (buildTraceability anns).nodes nid).isSome = true :=
    mem_lookupN_isSome _ _ _ h
  have hmain := foldl_keys (fun st a => processAnn a st) (fun a k => k ∈ mentionedIds a) anns
    (fun st b k hk => processAnn_keys b st k hk) ([], []) nid hs
  rcases hmain with h2 | h2
  · simp [lookupN] at h2
  · exact h2

/-- Claim C1, witness: in Scenario C the legacy specification id itself is a
declared id of one of the records. -/
theorem c1_witness : ∃ a ∈ annsC1, "SPEC-002-001" ∈ mentionedIds a :=
  c1_no_backfill annsC1 "SPEC-002-001" c1nd (by decide)

/-! ### Claim C3: risk resolution -/

theorem memB_append (x : String) (l1 l2 : List String) :
    memB x (l1 ++ l2) = (memB x l1 || memB x l2) := by
  induction l1 with
  | nil => simp [memB]
  | cons y ys ih => by_cases h : x = y <;> simp [memB, h, ih]

theorem sevMaxList_cases (l : List String) :
    sevMaxList l = none ∨ sevMaxList l = some "HIGH" ∨ sevMaxList l = some "MEDIUM" ∨
      sevMaxList l = some "LOW" ∨ sevMaxList l = some "UNKNOWN" := by
  unfold sevMaxList
  split_ifs <;> simp

theorem riskOf_ensure_none (nodes : List (String × Node)) (nid ph : String)
    (t f : Option String) (k : String) :
    riskOf (ensureNode nodes nid ph none t f) k = riskOf nodes k := by
  rw [riskOf_ensure _ _ _ _ _ _ _ (fun rr h => Option.noConfusion h)]
  split <;> rfl

theorem riskOf_ensure_some (nodes : List (String × Node)) (nid ph rr : String)
    (t f : Option String) (k : String) (hr : rr ≠ "") :
    riskOf (ensureNode nodes nid ph (some rr) t f) k =
      if k = nid then riskUpd (riskOf nodes k) rr else riskOf nodes k := by
  rw [riskOf_ensure _ _ _ _ _ _ _ (fun rr2 h => by injection h with h; subst h; exact hr)]

theorem riskOf_addTier (nodes : List (String × Node)) (fid t k : String) :
    riskOf (addTier nodes fid t) k = riskOf nodes k := by
  unfold riskOf
  rw [lookupN_addTier]
  by_cases hk : k = fid
  · subst hk
    cases h : lookupN nodes k <;> simp [tierUpd_risk]
  · simp [hk]

theorem riskOf_tierFold (a : Ann) (k : String) :
    ∀ ns : List (String × Node), riskOf (tierFold a ns) k = riskOf ns k := by
  unfold tierFold
  generalize fileNodeId a.file = fid
  induction a.test_types with
  | nil => intro ns; rfl
  | cons t ts ih =>
    intro ns
    simp only [List.foldl_cons]
    rw [ih, riskOf_addTier]

/-- The risk evolution of one id along one of the builder's loops, as the fold
of `riskUpd` over the loop's per-element contributions. -/
theorem foldl_riskOf {β : Type} (id : String) (step : GState → β → GState)
    (cF : β → List String) (l : List β)
    (hstep : ∀ st b, riskOf (step st b).1 id = List.foldl riskUpd (riskOf st.1 id) (cF b)) :
    ∀ st : GState, riskOf ((l.foldl step st).1) id =
      List.foldl riskUpd (riskOf st.1 id) (l.flatMap cF) := by
  induction l with
  | nil => intro st; rfl
  | cons b bs ih =>
    intro st
    simp only [List.foldl_cons, List.flatMap_cons, List.foldl_append]
    rw [ih, hstep]

theorem satStep_riskOf (a : Ann) (hr : annRisk a ≠ "") (st : GState) (b id : String) :
    riskOf (satStep a st b).1 id =
      List.foldl riskUpd (riskOf st.1 id)
        ((if b = id then [annRisk a] else []) ++
         (if fileNodeId a.file = id then [annRisk a] else [])) := by
  show riskOf (ensureNode (ensureNode st.1 b "requirement" (some (annRisk a)) none none)
    (fileNodeId a.file) (filePhase a) (some (annRisk a)) none (some a.file)) id = _
  rw [riskOf_ensure_some _ _ _ _ _ _ _ hr, riskOf_ensure_some _ _ _ _ _ _ _ hr]
  by_cases hb : b = id
  · by_cases hf : fileNodeId a.file = id
    · simp [hb, hf]
    · have hf' : ¬id = fileNodeId a.file := fun h => hf h.symm
      simp [hb, hf, hf']
  · have hb' : ¬id = b := fun h => hb h.symm
    by_cases hf : fileNodeId a.file = id
    · simp [hb, hb', hf]
    · have hf' : ¬id = fileNodeId a.file := fun h => hf h.symm
      simp [hb, hb', hf, hf']

theorem implStep_riskOf (a : Ann) (hr : annRisk a ≠ "") (st : GState) (b id : String) :
    riskOf (implStep a st b).1 id =
      List.foldl riskUpd (riskOf st.1 id)
        ((if b = id then [annRisk a] else []) ++
         (if fileNodeId a.file = id then [annRisk a] else [])) := by
  show riskOf (ensureNode (ensureNode st.1 b
    (if strStarts "US-" b then "user_story" else "specification") (some (annRisk a)) none none)
    (fileNodeId a.file) (filePhase a) (some (annRisk a)) none (some a.file)) id = _
  rw [riskOf_ensure_some _ _ _ _ _ _ _ hr, riskOf_ensure_some _ _ _ _ _ _ _ hr]
  by_cases hb : b = id
  · by_cases hf : fileNodeId a.file = id
    · simp [hb, hf]
    · have hf' : ¬id = fileNodeId a.file := fun h => hf h.symm
      simp [hb, hf, hf']
  · have hb' : ¬id = b := fun h => hb h.symm
    by_cases hf : fileNodeId a.file = id
    · simp [hb, hb', hf]
    · have hf' : ¬id = fileNodeId a.file := fun h => hf h.symm
      simp [hb, hb', hf, hf']

theorem verStep_riskOf (a : Ann) (hr : annRisk a ≠ "") (st : GState) (b id : String) :
    riskOf (verStep a st b).1 id =
      List.foldl riskUpd (riskOf st.1 id)
        ((if b = id then [annRisk a] else []) ++
         (if fileNodeId a.file = id then [annRisk a] else [])) := by
  show riskOf (tierFold a (ensureNode
    (ensureNode st.1 b "specification" (some (annRisk a)) none none)
    (fileNodeId a.file) (filePhase a) (some (annRisk a)) none (some a.file))) id = _
  rw [riskOf_tierFold, riskOf_ensure_some _ _ _ _ _ _ _ hr,
    riskOf_ensure_some _ _ _ _ _ _ _ hr]
  by_cases hb : b = id
  · by_cases hf : fileNodeId a.file = id
    · simp [hb, hf]
    · have hf' : ¬id = fileNodeId a.file := fun h => hf h.symm
      simp [hb, hf, hf']
  · have hb' : ¬id = b := fun h => hb h.symm
    by_cases hf : fileNodeId a.file = id
    · simp [hb, hb', hf]
    · have hf' : ¬id = fileNodeId a.file := fun h => hf h.symm
      simp [hb, hb', hf, hf']

theorem derStep_riskOf (a : Ann) (st : GState) (b id : String) :
    riskOf (derStep a st b).1 id = riskOf st.1 id := by
  show riskOf (ensureNode st.1 b (inferPhase b) none none none) id = _
  rw [riskOf_ensure_none]

theorem reqStep_riskOf (a : Ann) (hr : annRisk a ≠ "") (st : GState) (b : LegacyRef)
    (id : String) :
    riskOf (reqStep a st b).1 id =
      List.foldl riskUpd (riskOf st.1 id)
        (if fileNodeId a.file = id then [annRisk a] else []) := by
  show riskOf (ensureNode (ensureNode st.1 b.id "requirement" none (some b.desc) none)
    (fileNodeId a.file) (filePhase a) (some (annRisk a)) none (some a.file)) id = _
  rw [riskOf_ensure_some _ _ _ _ _ _ _ hr, riskOf_ensure_none]
  by_cases hf : fileNodeId a.file = id
  · simp [hf]
  · have hf' : ¬id = fileNodeId a.file := fun h => hf h.symm
    simp [hf, hf']

theorem specStep_riskOf (a : Ann) (hr : annRisk a ≠ "") (st : GState) (b : LegacyRef)
    (id : String) :
    riskOf (specStep a st b).1 id =
      List.foldl riskUpd (riskOf st.1 id)
        (if fileNodeId a.file = id then [annRisk a] else []) := by
  show riskOf (ensureNode (ensureNode st.1 b.id "specification" none (some b.desc) none)
    (fileNodeId a.file) (filePhase a) (some (annRisk a)) none (some a.file)) id = _
  rw [riskOf_ensure_some _ _ _ _ _ _ _ hr, riskOf_ensure_none]
  by_cases hf : fileNodeId a.file = id
  · simp [hf]
  · have hf' : ¬id = fileNodeId a.file := fun h => hf h.symm
    simp [hf, hf']

theorem traceStep_riskOf (a : Ann) (hr : annRisk a ≠ "") (st : GState) (b : String)
    (id : String) :
    riskOf (traceStep a st b).1 id =
      List.foldl riskUpd (riskOf st.1 id)
        (if fileNodeId a.file = id then [annRisk a] else []) := by
  show riskOf (ensureNode (ensureNode st.1 b "user_story" none none none)
    (fileNodeId a.file) (filePhase a) (some (annRisk a)) none (some a.file)) id = _
  rw [riskOf_ensure_some _ _ _ _ _ _ _ hr, riskOf_ensure_none]
  by_cases hf : fileNodeId a.file = id
  · simp [hf]
  · have hf' : ¬id = fileNodeId a.file := fun h => hf h.symm
    simp [hf, hf']

theorem annRisk_valid (a : Ann) (hv : validRisks a) :
    annRisk a = "HIGH" ∨ annRisk a = "MEDIUM" ∨ annRisk a = "LOW" ∨
      annRisk a = "UNKNOWN" := by
  unfold annRisk
  cases h : a.risk_levels with
  | nil => simp
  | cons r rs =>
    have hm := hv r (h ▸ List.mem_cons_self r rs)
    simp only [List.headD_cons]
    tauto

theorem annRisk_ne_empty (a : Ann) (hv : validRisks a) : annRisk a ≠ "" := by
  rcases annRisk_valid a hv with h | h | h | h <;> rw [h] <;> decide

theorem processAnn_riskOf (a : Ann) (hv : validRisks a) (st : GState) (id : String) :
    riskOf (processAnn a st).1 id =
      List.foldl riskUpd (riskOf st.1 id) (touchRisks1 a id) := by
  have hr := annRisk_ne_empty a hv
  unfold processAnn satLoop implLoop verLoop derLoop reqLoop specLoop traceLoop
  rw [foldl_riskOf id (traceStep a) _ a.traces (fun st b => traceStep_riskOf a hr st b id),
    foldl_riskOf id (specStep a) _ a.specifications (fun st b => specStep_riskOf a hr st b id),
    foldl_riskOf id (reqStep a) _ a.requirements (fun st b => reqStep_riskOf a hr st b id),
    foldl_riskOf id (derStep a) (fun _ => []) a.derives_from
      (fun st b => derStep_riskOf a st b id),
    foldl_riskOf id (verStep a) _ a.verifies (fun st b => verStep_riskOf a hr st b id),
    foldl_riskOf id (implStep a) _ a.implements (fun st b => implStep_riskOf a hr st b id),
    foldl_riskOf id (satStep a) _ a.satisfies (fun st b => satStep_riskOf a hr st b id)]
  have hder : a.derives_from.flatMap (fun _ => ([] : List String)) = [] := by
    simp
  rw [hder]
  simp only [touchRisks1, List.foldl_append, List.foldl_nil]

theorem build_riskOf (anns : List Ann) (hwf : ∀ a ∈ anns, validRisks a) (id : String) :
    riskOf (buildTraceability anns).nodes id =
      List.foldl riskUpd none (touchRisks anns id) := by
  have main : ∀ (l : List Ann), (∀ a ∈ l, validRisks a) → ∀ st : GState,
      riskOf ((l.foldl (fun st a => processAnn a st) st).1) id =
        List.foldl riskUpd (riskOf st.1 id) (touchRisks l id) := by
    intro l
    induction l with
    | nil => intro _ st; rfl
    | cons a as ih =>
      intro hvl st
      simp only [List.foldl_cons, touchRisks, List.flatMap_cons, List.foldl_append]
      rw [show touchRisks as id = as.flatMap (fun a => touchRisks1 a id) from rfl] at ih
      rw [ih (fun a2 ha2 => hvl a2 (List.mem_cons_of_mem _ ha2)),
        processAnn_riskOf a (hvl a (List.mem_cons_self a as)) st id]
  exact main anns hwf ([], [])

theorem sevFold_eq_sevMaxList (l : List String)
    (h : ∀ x ∈ l, x = "HIGH" ∨ x = "MEDIUM" ∨ x = "LOW" ∨ x = "UNKNOWN") :
    List.foldl riskUpd none l = sevMaxList l := by
  induction l using List.reverseRecOn with
  | nil => rfl
  | append_singleton l r ih =>
    have hl : ∀ x ∈ l, x = "HIGH" ∨ x = "MEDIUM" ∨ x = "LOW" ∨ x = "UNKNOWN" :=
      fun x hx => h x (List.mem_append_left _ hx)
    have hr := h r (List.mem_append_right _ (List.mem_singleton.mpr rfl))
    rw [List.foldl_append, List.foldl_cons, List.foldl_nil, ih hl]
    rcases hr with hr | hr | hr | hr <;> subst hr
    · have hm : memB "HIGH" (l ++ ["HIGH"]) = true := by
        rw [memB_append]
        simp [memB]
      rw [show sevMaxList (l ++ ["HIGH"]) = some "HIGH" from by simp [sevMaxList, hm]]
      rcases sevMaxList_cases l with h0 | h0 | h0 | h0 | h0 <;> rw [h0] <;> decide
    · have hmM : memB "MEDIUM" (l ++ ["MEDIUM"]) = true := by
        rw [memB_append]
        simp [memB]
      have hmH : memB "HIGH" (l ++ ["MEDIUM"]) = memB "HIGH" l := by
        rw [memB_append]
        simp [memB]
      by_cases hH : memB "HIGH" l = true
      · rw [show sevMaxList (l ++ ["MEDIUM"]) = some "HIGH" from by
          simp [sevMaxList, hmH, hH]]
        rw [show sevMaxList l = some "HIGH" from by simp [sevMaxList, hH]]
        decide
      · rw [show sevMaxList (l ++ ["MEDIUM"]) = some "MEDIUM" from by
          simp [sevMaxList, hmH, hH, hmM]]
        by_cases hM : memB "MEDIUM" l = true
        · rw [show sevMaxList l = some "MEDIUM" from by simp [sevMaxList, hH, hM]]
          decide
        · by_cases hL : memB "LOW" l = true
          · rw [show sevMaxList l = some "LOW" from by simp [sevMaxList, hH, hM, hL]]
            decide
          · by_cases hE : l.isEmpty = true
            · rw [show sevMaxList l = none from by simp [sevMaxList, hH, hM, hL, hE]]
              decide
            · rw [show sevMaxList l = some "UNKNOWN" from by
                simp [sevMaxList, hH, hM, hL, hE]]
              decide
    · have hmL : memB "LOW" (l ++ ["LOW"]) = true := by
        rw [memB_append]
        simp [memB]
      have hmH : memB "HIGH" (l ++ ["LOW"]) = memB "HIGH" l := by
        rw [memB_append]
        simp [memB]
      have hmM : memB "MEDIUM" (l ++ ["LOW"]) = memB "MEDIUM" l := by
        rw [memB_append]
        simp [memB]
      by_cases hH : memB "HIGH" l = true
      · rw [show sevMaxList (l ++ ["LOW"]) = some "HIGH" from by simp [sevMaxList, hmH, hH]]
        rw [show sevMaxList l = some "HIGH" from by simp [sevMaxList, hH]]
        decide
      · by_cases hM : memB "MEDIUM" l = true
        · rw [show sevMaxList (l ++ ["LOW"]) = some "MEDIUM" from by
            simp [sevMaxList, hmH, hH, hmM, hM]]
          rw [show sevMaxList l = some "MEDIUM" from by simp [sevMaxList, hH, hM]]
          decide
        · rw [show sevMaxList (l ++ ["LOW"]) = some "LOW" from by
            simp [sevMaxList, hmH, hH, hmM, hM, hmL]]
          by_cases hL : memB "LOW" l = true
          · rw [show sevMaxList l = some "LOW" from by simp [sevMaxList, hH, hM, hL]]
            decide
          · by_cases hE : l.isEmpty = true
            · rw [show sevMaxList l = none from by simp [sevMaxList, hH, hM, hL, hE]]
              decide
            · rw [show sevMaxList l = some "UNKNOWN" from by
                simp [sevMaxList, hH, hM, hL, hE]]
              decide
    · have hmH : memB "HIGH" (l ++ ["UNKNOWN"]) = memB "HIGH" l := by
        rw [memB_append]
        simp [memB]
      have hmM : memB "MEDIUM" (l ++ ["UNKNOWN"]) = memB "MEDIUM" l := by
        rw [memB_append]
        simp [memB]
      have hmL : memB "LOW" (l ++ ["UNKNOWN"]) = memB "LOW" l := by
        rw [memB_append]
        simp [memB]
      have hne : (l ++ ["UNKNOWN"]).isEmpty = false := by
        cases l <;> simp
      by_cases hH : memB "HIGH" l = true
      · rw [show sevMaxList (l ++ ["UNKNOWN"]) = some "HIGH" from by
          simp [sevMaxList, hmH, hH]]
        rw [show sevMaxList l = some "HIGH" from by simp [sevMaxList, hH]]
        decide
      · by_cases hM : memB "MEDIUM" l = true
        · rw [show sevMaxList (l ++ ["UNKNOWN"]) = some "MEDIUM" from by
            simp [sevMaxList, hmH, hH, hmM, hM]]
          rw [show sevMaxList l = some "MEDIUM" from by simp [sevMaxList, hH, hM]]
          decide
        · by_cases hL : memB "LOW" l = true
          · rw [show sevMaxList (l ++ ["UNKNOWN"]) = some "LOW" from by
              simp [sevMaxList, hmH, hH, hmM, hM, hmL, hL]]
            rw [show sevMaxList l = some "LOW" from by simp [sevMaxList, hH, hM, hL]]
            decide
          · rw [show sevMaxList (l ++ ["UNKNOWN"]) = some "UNKNOWN" from by
              simp [sevMaxList, hmH, hH, hmM, hM, hmL, hL, hne]]
            by_cases hE : l.isEmpty = true
            · rw [show sevMaxList l = none from by simp [sevMaxList, hH, hM, hL, hE]]
              decide
            · rw [show sevMaxList l = some "UNKNOWN" from by
                simp [sevMaxList, hH, hM, hL, hE]]
              decide

theorem mem_ite_singleton {c : Prop} [Decidable c] {x r : String}
    (h : x ∈ (if c then [r] else [])) : x = r := by
  split at h
  · simpa using h
  · simp at h

theorem touchRisks1_mem (a : Ann) (id x : String) (hx : x ∈ touchRisks1 a id) :
    x = annRisk a := by
  simp only [touchRisks1, List.mem_append, List.mem_flatMap] at hx
  rcases hx with ((((h | h) | h) | h) | h) | h
  · obtain ⟨b, _, hb | hb⟩ := h <;> exact mem_ite_singleton hb
  · obtain ⟨b, _, hb | hb⟩ := h <;> exact mem_ite_singleton hb
  · obtain ⟨b, _, hb | hb⟩ := h <;> exact mem_ite_singleton hb
  · obtain ⟨b, _, hb⟩ := h
    exact mem_ite_singleton hb
  · obtain ⟨b, _, hb⟩ := h
    exact mem_ite_singleton hb
  · obtain ⟨b, _, hb⟩ := h
    exact mem_ite_singleton hb

/-- Claim C3, amended: a node's resolved risk is the maximum severity
(`HIGH` > `MEDIUM` > `LOW` > `UNKNOWN`), independent of encounter order, over
the per-record contributions — where each record contributes only its FIRST
declared risk level (`UNKNOWN` when it declares none), once per
satisfies/implements/verifies target and once per file-node ensure, while
derives-from targets and legacy req/spec/trace targets receive no contribution
(a node touched only by those keeps no risk at all, i.e. `None`). -/
theorem c3_risk_max (anns : List Ann) (hwf : ∀ a ∈ anns, validRisks a) (id : String) :
    riskOf (buildTraceability anns).nodes id = sevMaxList (touchRisks anns id) := by
  rw [build_riskOf anns hwf id]
  apply sevFold_eq_sevMaxList
  intro x hx
  obtain ⟨a, ha, hxa⟩ := List.mem_flatMap.mp hx
  rw [touchRisks1_mem a id x hxa]
  exact annRisk_valid a (hwf a ha)

/-- Claim C3, witness: for the two-file LOW/HIGH example the resolved risk of
`REQ-001` is the order-independent maximum severity of the contributions. -/
theorem c3_witness :
    riskOf (buildTraceability annsC3w).nodes "REQ-001" =
      sevMaxList (touchRisks annsC3w "REQ-001") :=
  c3_risk_max annsC3w (by simp only [validRisks]; decide) "REQ-001"

/-! ### Claim C2: coverage is undirected reachability of a test-role node -/

theorem stepNbrs_inv (nodes : List (String × Node)) (ns : List String) :
    ∀ (q v f : List String),
      (∀ x ∈ f, x ∈ v ∧ isTestRole nodes x = true) →
      (∀ x ∈ v, isTestRole nodes x = true → x ∈ f) →
      (∀ x ∈ (stepNbrs nodes ns q v f).2.2,
        x ∈ (stepNbrs nodes ns q v f).2.1 ∧ isTestRole nodes x = true) ∧
      (∀ x ∈ (stepNbrs nodes ns q v f).2.1,
        isTestRole nodes x = true → x ∈ (stepNbrs nodes ns q v f).2.2) := by
  induction ns with
  | nil => intro q v f h1 h2; exact ⟨h1, h2⟩
  | cons n ns ih =>
    intro q v f h1 h2
    by_cases hm : memB n v = true
    · rw [show stepNbrs nodes (n :: ns) q v f = stepNbrs nodes ns q v f from by
        simp [stepNbrs, hm]]
      exact ih q v f h1 h2
    · rw [show stepNbrs nodes (n :: ns) q v f = stepNbrs nodes ns (q ++ [n]) (v ++ [n])
        (if isTestRole nodes n then f ++ [n] else f) from by simp [stepNbrs, hm]]
      refine ih _ _ _ ?_ ?_
      · intro x hx
        by_cases ht : isTestRole nodes n = true
        · rw [if_pos ht] at hx
          rcases List.mem_append.mp hx with hx | hx
          · obtain ⟨hv, hr⟩ := h1 x hx
            exact ⟨List.mem_append_left _ hv, hr⟩
          · rw [List.mem_singleton] at hx
            subst hx
            exact ⟨List.mem_append_right _ (List.mem_singleton.mpr rfl), ht⟩
        · rw [if_neg ht] at hx
          obtain ⟨hv, hr⟩ := h1 x hx
          exact ⟨List.mem_append_left _ hv, hr⟩
      · intro x hx hr
        rcases List.mem_append.mp hx with hx | hx
        · have hxa := h2 x hx hr
          by_cases ht : isTestRole nodes n = true
          · rw [if_pos ht]; exact List.mem_append_left _ hxa
          · rw [if_neg ht]; exact hxa
        · rw [List.mem_singleton] at hx
          subst hx
          rw [if_pos hr]
          exact List.mem_append_right _ (List.mem_singleton.mpr rfl)

theorem bfsLoop_inv (nodes : List (String × Node)) (adj : String → List String) :
    ∀ (fuel : Nat) (q v f : List String),
      (∀ x ∈ f, x ∈ v ∧ isTestRole nodes x = true) →
      (∀ x ∈ v, isTestRole nodes x = true → x ∈ f) →
      (∀ x ∈ (bfsLoop nodes adj fuel q v f).2,
        x ∈ (bfsLoop nodes adj fuel q v f).1 ∧ isTestRole nodes x = true) ∧
      (∀ x ∈ (bfsLoop nodes adj fuel q v f).1,
        isTestRole nodes x = true → x ∈ (bfsLoop nodes adj fuel q v f).2) := by
  intro fuel
  induction fuel with
  | zero => intro q v f h1 h2; exact ⟨h1, h2⟩
  | succ fuel ih =>
    intro q v f h1 h2
    cases q with
    | nil => exact ⟨h1, h2⟩
    | cons cur rest =>
      have hstep := stepNbrs_inv nodes (adj cur) rest v f h1 h2
      exact ih _ _ _ hstep.1 hstep.2

theorem bfsRun_found_iff (nodes : List (String × Node)) (edges : List Edge) (rid : String)
    (hstart : isTestRole nodes rid = false) :
    0 < (bfsRun nodes edges rid).2.length ↔
      ∃ x ∈ (bfsRun nodes edges rid).1, isTestRole nodes x = true := by
  have h := bfsLoop_inv nodes (adjOf edges) (2 * edges.length + 2) [rid] [rid] []
    (by intro x hx; simp at hx)
    (by
      intro x hx hr
      rw [List.mem_singleton] at hx
      subst hx
      rw [hstart] at hr
      exact absurd hr (by simp))
  constructor
  · intro hlen
    obtain ⟨y, hy⟩ := List.exists_mem_of_length_pos hlen
    exact ⟨y, (h.1 y hy).1, (h.1 y hy).2⟩
  · rintro ⟨x, hx, hr⟩
    exact List.length_pos.mpr (List.ne_nil_of_mem (h.2 x hx hr))

theorem tierFold_keys (a : Ann) :
    ∀ ns : List (String × Node), (tierFold a ns).map Prod.fst = ns.map Prod.fst := by
  unfold tierFold
  generalize fileNodeId a.file = fid
  induction a.test_types with
  | nil => intro ns; rfl
  | cons t ts ih =>
    intro ns
    simp only [List.foldl_cons]
    rw [ih, addTier_keys]

theorem build_keys_nodup (anns : List Ann) :
    (((buildTraceability anns).nodes).map Prod.fst).Nodup := by
  show (((anns.foldl (fun st a => processAnn a st) ([], [])).1).map Prod.fst).Nodup
  refine foldl_pres _ (fun st => (st.1.map Prod.fst).Nodup) anns ?_ ([], []) (by simp)
  intro st a _ hq
  show (((traceLoop a (specLoop a (reqLoop a (derLoop a (verLoop a (implLoop a
    (satLoop a st))))))).1).map Prod.fst).Nodup
  have h1 : (((satLoop a st).1).map Prod.fst).Nodup :=
    foldl_pres (satStep a) (fun st => (st.1.map Prod.fst).Nodup) a.satisfies
      (fun st b _ hq => ensure_keys_nodup _ _ _ _ _ _ (ensure_keys_nodup _ _ _ _ _ _ hq)) st hq
  have h2 : (((implLoop a (satLoop a st)).1).map Prod.fst).Nodup :=
    foldl_pres (implStep a) (fun st => (st.1.map Prod.fst).Nodup) a.implements
      (fun st b _ hq => ensure_keys_nodup _ _ _ _ _ _ (ensure_keys_nodup _ _ _ _ _ _ hq)) _ h1
  have h3 : (((verLoop a (implLoop a (satLoop a st))).1).map Prod.fst).Nodup :=
    foldl_pres (verStep a) (fun st => (st.1.map Prod.fst).Nodup) a.verifies
      (fun st b _ hq => by
        show (((verStep a st b).1).map Prod.fst).Nodup
        rw [show (verStep a st b).1 = tierFold a (ensureNode
          (ensureNode st.1 b "specification" (some (annRisk a)) none none)
          (fileNodeId a.file) (filePhase a) (some (annRisk a)) none (some a.file)) from rfl,
          tierFold_keys]
        exact ensure_keys_nodup _ _ _ _ _ _ (ensure_keys_nodup _ _ _ _ _ _ hq)) _ h2
  have h4 : (((derLoop a (verLoop a (implLoop a (satLoop a st)))).1).map Prod.fst).Nodup :=
    foldl_pres (derStep a) (fun st => (st.1.map Prod.fst).Nodup) a.derives_from
      (fun st b _ hq => ensure_keys_nodup _ _ _ _ _ _ hq) _ h3
  have h5 : (((reqLoop a (derLoop a (verLoop a (implLoop a (satLoop a st))))).1).map
      Prod.fst).Nodup :=
    foldl_pres (reqStep a) (fun st => (st.1.map Prod.fst).Nodup) a.requirements
      (fun st b _ hq => ensure_keys_nodup _ _ _ _ _ _ (ensure_keys_nodup _ _ _ _ _ _ hq)) _ h4
  have h6 : (((specLoop a (reqLoop a (derLoop a (verLoop a (implLoop a
      (satLoop a st)))))).1).map Prod.fst).Nodup :=
    foldl_pres (specStep a) (fun st => (st.1.map Prod.fst).Nodup) a.specifications
      (fun st b _ hq => ensure_keys_nodup _ _ _ _ _ _ (ensure_keys_nodup _ _ _ _ _ _ hq)) _ h5
  exact foldl_pres (traceStep a) (fun st => (st.1.map Prod.fst).Nodup) a.traces
    (fun st b _ hq => ensure_keys_nodup _ _ _ _ _ _ (ensure_keys_nodup _ _ _ _ _ _ hq)) _ h6

theorem filePhaseInv_ensure (nodes : List (String × Node)) (nid ph : String)
    (r t f : Option String)
    (hph : strStarts "FILE:" nid = true → ph = "test" ∨ ph = "code")
    (hinv : filePhaseInv nodes) : filePhaseInv (ensureNode nodes nid ph r t f) := by
  intro k nd hl hs
  rw [lookupN_ensure] at hl
  by_cases hk : k = nid
  · rw [if_pos hk] at hl
    injection hl with hl
    subst hl
    rw [nodeUpd_phase]
    cases h2 : lookupN nodes nid with
    | some v => simpa using hinv nid v h2 (hk ▸ hs)
    | none => simpa [newNode] using hph (hk ▸ hs)
  · rw [if_neg hk] at hl
    exact hinv k nd hl hs

theorem filePhaseInv_addTier (nodes : List (String × Node)) (fid t : String)
    (hinv : filePhaseInv nodes) : filePhaseInv (addTier nodes fid t) := by
  intro k nd hl hs
  rw [lookupN_addTier] at hl
  by_cases hk : k = fid
  · rw [if_pos hk] at hl
    cases h2 : lookupN nodes fid with
    | some v =>
      rw [h2] at hl
      injection hl with hl
      subst hl
      rw [tierUpd_phase]
      exact hinv fid v h2 (hk ▸ hs)
    | none => rw [h2] at hl; exact absurd hl (by simp)
  · rw [if_neg hk] at hl
    exact hinv k nd hl hs

theorem filePhaseInv_tierFold (a : Ann) :
    ∀ ns : List (String × Node), filePhaseInv ns → filePhaseInv (tierFold a ns) := by
  unfold tierFold
  generalize fileNodeId a.file = fid
  induction a.test_types with
  | nil => intro ns h; exact h
  | cons t ts ih =>
    intro ns h
    simp only [List.foldl_cons]
    exact ih _ (filePhaseInv_addTier ns fid t h)

theorem filePhase_cases (a : Ann) : filePhase a = "test" ∨ filePhase a = "code" := by
  unfold filePhase
  by_cases ht : a.is_test = true <;> simp [ht]

theorem build_filePhaseInv (anns : List Ann) (hwf : ∀ a ∈ anns, noFileIds a) :
    filePhaseInv (buildTraceability anns).nodes := by
  show filePhaseInv ((anns.foldl (fun st a => processAnn a st) ([], [])).1)
  refine foldl_pres _ (fun st => filePhaseInv st.1) anns ?_ ([], [])
    (fun k nd hl _ => absurd hl (by simp [lookupN]))
  intro st a ha hq
  have hwfa := hwf a ha
  have htgt : ∀ b ∈ declaredTargets a, ∀ ph : String,
      strStarts "FILE:" b = true → ph = "test" ∨ ph = "code" := by
    intro b hb ph hs
    rw [hwfa b hb] at hs
    exact absurd hs (by simp)
  have hfid : ∀ _ : strStarts "FILE:" (fileNodeId a.file) = true,
      filePhase a = "test" ∨ filePhase a = "code" := fun _ => filePhase_cases a
  show filePhaseInv (traceLoop a (specLoop a (reqLoop a (derLoop a (verLoop a (implLoop a
    (satLoop a st))))))).1
  have h1 : filePhaseInv (satLoop a st).1 :=
    foldl_pres (satStep a) (fun st => filePhaseInv st.1) a.satisfies
      (fun st b hb hq => filePhaseInv_ensure _ _ _ _ _ _ hfid
        (filePhaseInv_ensure _ _ _ _ _ _
          (htgt b (by unfold declaredTargets; simp only [List.mem_append]; tauto) _) hq)) st hq
  have h2 : filePhaseInv (implLoop a (satLoop a st)).1 :=
    foldl_pres (implStep a) (fun st => filePhaseInv st.1) a.implements
      (fun st b hb hq => filePhaseInv_ensure _ _ _ _ _ _ hfid
        (filePhaseInv_ensure _ _ _ _ _ _
          (htgt b (by unfold declaredTargets; simp only [List.mem_append]; tauto) _) hq)) _ h1
  have h3 : filePhaseInv (verLoop a (implLoop a (satLoop a st))).1 :=
    foldl_pres (verStep a) (fun st => filePhaseInv st.1) a.verifies
      (fun st b hb hq => by
        show filePhaseInv (verStep a st b).1
        rw [show (verStep a st b).1 = tierFold a (ensureNode
          (ensureNode st.1 b "specification" (some (annRisk a)) none none)
          (fileNodeId a.file) (filePhase a) (some (annRisk a)) none (some a.file)) from rfl]
        exact filePhaseInv_tierFold a _ (filePhaseInv_ensure _ _ _ _ _ _ hfid
          (filePhaseInv_ensure _ _ _ _ _ _
            (htgt b (by unfold declaredTargets; simp only [List.mem_append]; tauto) _) hq))) _ h2
  have h4 : filePhaseInv (derLoop a (verLoop a (implLoop a (satLoop a st)))).1 :=
    foldl_pres (derStep a) (fun st => filePhaseInv st.1) a.derives_from
      (fun st b hb hq => filePhaseInv_ensure _ _ _ _ _ _
        (htgt b (by unfold declaredTargets; simp only [List.mem_append]; tauto) _) hq) _ h3
  have h5 : filePhaseInv (reqLoop a (derLoop a (verLoop a (implLoop a (satLoop a st))))).1 :=
    foldl_pres (reqStep a) (fun st => filePhaseInv st.1) a.requirements
      (fun st b hb hq => by
        have hm : b.id ∈ a.requirements.map (fun r => r.id) := List.mem_map.mpr ⟨b, hb, rfl⟩
        exact filePhaseInv_ensure _ _ _ _ _ _ hfid
          (filePhaseInv_ensure _ _ _ _ _ _
            (htgt b.id (by unfold declaredTargets; simp only [List.mem_append]; tauto) _) hq)) _ h4
  have h6 : filePhaseInv (specLoop a (reqLoop a (derLoop a (verLoop a (implLoop a
      (satLoop a st)))))).1 :=
    foldl_pres (specStep a) (fun st => filePhaseInv st.1) a.specifications
      (fun st b hb hq => by
        have hm : b.id ∈ a.specifications.map (fun s => s.id) := List.mem_map.mpr ⟨b, hb, rfl⟩
        exact filePhaseInv_ensure _ _ _ _ _ _ hfid
          (filePhaseInv_ensure _ _ _ _ _ _
            (htgt b.id (by unfold declaredTargets; simp only [List.mem_append]; tauto) _) hq)) _ h5
  exact foldl_pres (traceStep a) (fun st => filePhaseInv st.1) a.traces
    (fun st b hb hq => filePhaseInv_ensure _ _ _ _ _ _ hfid
      (filePhaseInv_ensure _ _ _ _ _ _
        (htgt b (by unfold declaredTargets; simp only [List.mem_append]; tauto) _) hq)) _ h6

theorem build_req_not_testRole (anns : List Ann) (hwf : ∀ a ∈ anns, noFileIds a)
    (rid : String) (rn : Node) (hmem : (rid, rn) ∈ (buildTraceability anns).nodes)
    (hph : rn.phase = "requirement") :
    isTestRole (buildTraceability anns).nodes rid = false := by
  have hl : lookupN (buildTraceability anns).nodes rid = some rn :=
    lookupN_of_mem_nodup _ _ _ (build_keys_nodup anns) hmem
  unfold isTestRole
  rw [hl]
  show (if rn.phase = "test" then true
    else if (strStarts "FILE:" rid && isTestFileFn (strDropN 5 rid)) = true then true
    else false) = false
  rw [hph, if_neg (by decide : ¬("requirement" = "test"))]
  by_cases hs : strStarts "FILE:" rid = true
  · rcases build_filePhaseInv anns hwf rid rn hl hs with h | h <;>
      rw [hph] at h <;> exact absurd h (by decide)
  · rw [Bool.not_eq_true] at hs
    simp [hs]

/-- Claim C2: for every coverage entry of the built graph (one per
requirement-phase node), the stored `covered` flag is true exactly when the
undirected BFS from that requirement visits at least one test-role node. The
hypothesis says the declared target ids do not use the reserved `FILE:`
prefix, which holds for every id the tag grammar can produce. -/
theorem c2_covered_iff (anns : List Ann) (hwf : ∀ a ∈ anns, noFileIds a)
    (p : String × CovRec) (hp : p ∈ (buildTraceability anns).coverage) :
    p.2.covered = true ↔
      ∃ x ∈ (bfsRun (buildTraceability anns).nodes (buildTraceability anns).edges p.1).1,
        isTestRole (buildTraceability anns).nodes x = true := by
  obtain ⟨q, hq, hpq⟩ := List.mem_map.mp hp
  have hqmem := List.mem_filter.mp hq
  have hqphase : q.2.phase = "requirement" := by
    have := hqmem.2
    simpa using this
  have hrole : isTestRole (buildTraceability anns).nodes q.1 = false :=
    build_req_not_testRole anns hwf q.1 q.2 hqmem.1 hqphase
  subst hpq
  show decide (0 < (bfsRun (buildTraceability anns).nodes (buildTraceability anns).edges
    q.1).2.length) = true ↔ _
  rw [decide_eq_true_eq]
  exact bfsRun_found_iff _ _ _ hrole

/-- Claim C2, witness: in the Scenario-B-style graph the requirement is
covered and the BFS indeed reaches the test file node. -/
theorem c2_witness :
    c2p.2.covered = true ↔
      ∃ x ∈ (bfsRun (buildTraceability annsC2w).nodes (buildTraceability annsC2w).edges
        c2p.1).1, isTestRole (buildTraceability annsC2w).nodes x = true :=
  c2_covered_iff annsC2w (by simp only [noFileIds]; decide) c2p (by decide)

/-! ### Claim C10: tiers only via v3 verifies -/

theorem tierFoldList_tiersOf (fid k : String) (hk : k ≠ fid) (ts : List String) :
    ∀ ns : List (String × Node),
      tiersOf (ts.foldl (fun ns t => addTier ns fid t) ns) k = tiersOf ns k := by
  induction ts with
  | nil => intro ns; rfl
  | cons t ts ih =>
    intro ns
    simp only [List.foldl_cons]
    rw [ih, tiersOf_addTier_ne _ _ _ _ hk]

theorem verLoop_tiers_pres (a : Ann) (id : String)
    (hv : fileNodeId a.file = id → a.verifies = []) (st : GState)
    (h : tiersOf st.1 id = []) : tiersOf (verLoop a st).1 id = [] := by
  by_cases hfid : fileNodeId a.file = id
  · rw [verLoop, hv hfid]
    simpa using h
  · refine foldl_pres (verStep a) (fun st => tiersOf st.1 id = []) a.verifies ?_ st h
    intro st b _ hq
    show tiersOf (tierFold a _) id = []
    rw [show tierFold a _ = (verStep a st b).1 from rfl]
    rw [show (verStep a st b).1 = tierFold a (ensureNode
      (ensureNode st.1 b "specification" (some (annRisk a)) none none)
      (fileNodeId a.file) (filePhase a) (some (annRisk a)) none (some a.file)) from rfl]
    rw [tierFold, tierFoldList_tiersOf (fileNodeId a.file) id (fun hh => hfid hh.symm),
      tiersOf_ensure, tiersOf_ensure]
    exact hq

/-- Claim C10: a node's tier set can only be populated through an explicit v3
`@gxp-verifies` relation — if every record for a given node id has an empty
verifies list, that node's tier set is empty, even when the records declare
`@test-type` tiers and legacy spec/trace tags. -/
theorem c10_tiers_only_verifies (anns : List Ann) (id : String)
    (h : ∀ a ∈ anns, fileNodeId a.file = id → a.verifies = []) :
    tiersOf (buildTraceability anns).nodes id = [] := by
  show tiersOf ((anns.foldl (fun st a => processAnn a st) ([], [])).1) id = []
  refine foldl_pres _ (fun st => tiersOf st.1 id = []) anns ?_ ([], []) rfl
  intro st a ha hq
  show tiersOf (traceLoop a (specLoop a (reqLoop a (derLoop a
    (verLoop a (implLoop a (satLoop a st))))))).1 id = []
  have hsat : tiersOf (satLoop a st).1 id = [] :=
    foldl_pres (satStep a) (fun st => tiersOf st.1 id = []) a.satisfies
      (fun st b _ hq => by
        show tiersOf (ensureNode (ensureNode st.1 b "requirement" (some (annRisk a)) none none)
          (fileNodeId a.file) (filePhase a) (some (annRisk a)) none (some a.file)) id = []
        rw [tiersOf_ensure, tiersOf_ensure]; exact hq) st hq
  have himpl : tiersOf (implLoop a (satLoop a st)).1 id = [] :=
    foldl_pres (implStep a) (fun st => tiersOf st.1 id = []) a.implements
      (fun st b _ hq => by
        show tiersOf (ensureNode (ensureNode st.1 b _ (some (annRisk a)) none none)
          (fileNodeId a.file) (filePhase a) (some (annRisk a)) none (some a.file)) id = []
        rw [tiersOf_ensure, tiersOf_ensure]; exact hq) _ hsat
  have hver : tiersOf (verLoop a (implLoop a (satLoop a st))).1 id = [] :=
    verLoop_tiers_pres a id (h a ha) _ himpl
  have hder : tiersOf (derLoop a (verLoop a (implLoop a (satLoop a st)))).1 id = [] :=
    foldl_pres (derStep a) (fun st => tiersOf st.1 id = []) a.derives_from
      (fun st b _ hq => by
        show tiersOf (ensureNode st.1 b (inferPhase b) none none none) id = []
        rw [tiersOf_ensure]; exact hq) _ hver
  have hreq : tiersOf (reqLoop a (derLoop a (verLoop a (implLoop a (satLoop a st))))).1 id
      = [] :=
    foldl_pres (reqStep a) (fun st => tiersOf st.1 id = []) a.requirements
      (fun st b _ hq => by
        show tiersOf (ensureNode (ensureNode st.1 b.id "requirement" none (some b.desc) none)
          (fileNodeId a.file) (filePhase a) (some (annRisk a)) none (some a.file)) id = []
        rw [tiersOf_ensure, tiersOf_ensure]; exact hq) _ hder
  have hspec : tiersOf (specLoop a (reqLoop a (derLoop a (verLoop a (implLoop a
      (satLoop a st)))))).1 id = [] :=
    foldl_pres (specStep a) (fun st => tiersOf st.1 id = []) a.specifications
      (fun st b _ hq => by
        show tiersOf (ensureNode (ensureNode st.1 b.id "specification" none (some b.desc) none)
          (fileNodeId a.file) (filePhase a) (some (annRisk a)) none (some a.file)) id = []
        rw [tiersOf_ensure, tiersOf_ensure]; exact hq) _ hreq
  exact foldl_pres (traceStep a) (fun st => tiersOf st.1 id = []) a.traces
    (fun st b _ hq => by
      show tiersOf (ensureNode (ensureNode st.1 b "user_story" none none none)
        (fileNodeId a.file) (filePhase a) (some (annRisk a)) none (some a.file)) id = []
      rw [tiersOf_ensure, tiersOf_ensure]; exact hq) _ hspec

/-- Claim C10, witness: the Scenario C test file declares `@test-type PQ` and
only legacy spec/trace tags, and its file node's tier set stays empty. -/
theorem c10_witness :
    tiersOf (buildTraceability annsC1).nodes "FILE:tests/mod_test.py" = [] :=
  c10_tiers_only_verifies annsC1 "FILE:tests/mod_test.py" (by decide)

/-- Claim C8: every non-file node with zero in-degree and zero out-degree over
the edge list is reported by `findOrphans`, with severity ERROR exactly when
its resolved risk is HIGH (and WARNING otherwise); and nodes with the `FILE:`
prefix of file-synthetic nodes are never reported. -/
theorem c8_orphan_escalation (nodes : List (String × Node)) (edges : List Edge) :
    (∀ p ∈ nodes, strStarts "FILE:" p.1 = false →
      edges.any (fun e => e.fromId = p.1) = false →
      edges.any (fun e => e.toId = p.1) = false →
      ∃ i ∈ findOrphans nodes edges, i.node = p.1 ∧
        (i.severity = "ERROR" ↔ p.2.risk = some "HIGH") ∧
        (i.severity = "ERROR" ∨ i.severity = "WARNING")) ∧
    (∀ i ∈ findOrphans nodes edges, strStarts "FILE:" i.node = false) := by
  constructor
  · intro p hp hfile hout hin
    refine ⟨⟨p.1, if p.2.risk = some "HIGH" then "ERROR" else "WARNING",
      p.1 ++ " is completely disconnected from the traceability graph"⟩, ?_, rfl, ?_, ?_⟩
    · exact List.mem_flatMap.mpr ⟨p, hp, by simp [orphanIssuesFor, hasDegrees, hfile, hout, hin]⟩
    · by_cases hr : p.2.risk = some "HIGH" <;> simp [hr]
    · by_cases hr : p.2.risk = some "HIGH" <;> simp [hr]
  · intro i hi
    obtain ⟨p, _, hmem⟩ := List.mem_flatMap.mp hi
    have h := orphan_node_aux edges p i hmem
    rw [h.1]
    exact h.2

/-- Claim C8, witness: a `HIGH`-risk requirement node with no edges at all is
reported as fully disconnected with severity ERROR. -/
theorem c8_witness :
    ∃ i ∈ findOrphans c8nodes [], i.node = "REQ-009" ∧
      (i.severity = "ERROR" ↔ c8node.risk = some "HIGH") ∧
      (i.severity = "ERROR" ∨ i.severity = "WARNING") :=
  (c8_orphan_escalation c8nodes []).1 ("REQ-009", c8node) (by decide) (by decide)
    (by decide) (by decide)

/-! ### Claims C6 and C7: validator -/

theorem mem_if_single {c : Prop} [Decidable c] (x y : VIssue) :
    (x ∈ (if c then [y] else [])) ↔ c ∧ x = y := by
  split <;> simp_all

/-- Claim C6, amended: for a test-file record, the missing-verification-target
ERROR is emitted if and only if the record declares neither a `@gxp-verifies`
id nor a legacy `@gxp-spec` id — a legacy `@trace` id does not count as a
verification target. -/
theorem c6_missing_verifies_iff (a : Ann) (h : a.is_test = true) :
    (⟨a.file, "ERROR", "Test file missing @gxp-verifies (or legacy @gxp-spec) annotation"⟩ : VIssue)
      ∈ validateAnns [a] ↔ (a.verifies = [] ∧ a.specifications = []) := by
  have m2 : ("Test file missing @gxp-verifies (or legacy @gxp-spec) annotation" : String) ≠
      "Test file missing @test-type annotation" := by decide
  have m3 : ("Test file missing @gxp-verifies (or legacy @gxp-spec) annotation" : String) ≠
      "Test file missing @gxp-risk annotation" := by decide
  have sev : ("ERROR" : String) ≠ "WARNING" := by decide
  simp only [validateAnns, List.flatMap_cons, List.flatMap_nil, List.append_nil]
  unfold vIssuesFor
  rw [h]
  simp only [if_true, List.mem_append, mem_if_single, List.append_assoc]
  constructor
  · rintro (⟨hc, -⟩ | ⟨-, he⟩ | ⟨-, he⟩ | ⟨-, he⟩ | ⟨-, he⟩)
    · simpa [List.isEmpty_iff] using hc
    · exact absurd (congrArg VIssue.message he) m2
    · exact absurd (congrArg VIssue.message he) m3
    · exact absurd (congrArg VIssue.severity he) sev
    · exact absurd (congrArg VIssue.severity he) sev
  · rintro ⟨hv, hs⟩
    exact Or.inl ⟨by simp [hv, hs], trivial⟩

/-- Claim C6, witness: a test file whose only verification target is a legacy
`@trace` tag has empty verifies and specifications lists, so the amended rule
classifies it as missing a verification target. -/
theorem c6_witness :
    (⟨annC6ce.file, "ERROR",
      "Test file missing @gxp-verifies (or legacy @gxp-spec) annotation"⟩ : VIssue)
      ∈ validateAnns [annC6ce] ↔ (annC6ce.verifies = [] ∧ annC6ce.specifications = []) :=
  c6_missing_verifies_iff annC6ce (by decide)

/-- Claim C7, amended: for a source-file record, the missing-traceability-edge
ERROR is emitted if and only if the record declares none of the v3 edge tags
(satisfies, implements, verifies, derives-from) and none of the legacy tags
(req, spec, trace), and additionally declares at least one risk level whose
first value is not LOW; a record with no declared risk at all gets no such
ERROR either. -/
theorem c7_edge_error_iff (a : Ann) (h : a.is_test = false) :
    (⟨a.file, "ERROR",
      "Source file has no traceability edge tags (@gxp-satisfies, @gxp-implements)"⟩ : VIssue)
      ∈ validateAnns [a]
    ↔ (a.satisfies = [] ∧ a.implements = [] ∧ a.verifies = [] ∧ a.derives_from = [] ∧
       a.requirements = [] ∧ a.specifications = [] ∧ a.traces = [] ∧
       riskHeadNotLow a.risk_levels = true) := by
  have m2 : ("Source file has no traceability edge tags (@gxp-satisfies, @gxp-implements)" : String) ≠
      "Source file missing @gxp-risk annotation" := by decide
  have sev : ("ERROR" : String) ≠ "WARNING" := by decide
  simp only [validateAnns, List.flatMap_cons, List.flatMap_nil, List.append_nil]
  unfold vIssuesFor
  rw [h]
  simp only [Bool.false_eq_true, if_false, List.mem_append, mem_if_single, List.append_assoc]
  constructor
  · rintro (⟨hc, -⟩ | ⟨-, he⟩ | ⟨-, he⟩ | ⟨-, he⟩)
    · simp only [Bool.and_eq_true, Bool.not_eq_true', Bool.or_eq_false_iff, Bool.not_eq_false',
        List.isEmpty_iff] at hc
      tauto
    · exact absurd (congrArg VIssue.message he) m2
    · exact absurd (congrArg VIssue.severity he) sev
    · exact absurd (congrArg VIssue.severity he) sev
  · rintro ⟨h1, h2, h3, h4, h5, h6, h7, h8⟩
    exact Or.inl ⟨by simp [h1, h2, h3, h4, h5, h6, h7, h8], trivial⟩

/-- Claim C7, witness: a HIGH-risk source file with no relation tags at all
receives the missing-traceability-edge ERROR under the amended rule. -/
theorem c7_witness :
    (⟨annC7w.file, "ERROR",
      "Source file has no traceability edge tags (@gxp-satisfies, @gxp-implements)"⟩ : VIssue)
      ∈ validateAnns [annC7w]
    ↔ (annC7w.satisfies = [] ∧ annC7w.implements = [] ∧ annC7w.verifies = [] ∧
       annC7w.derives_from = [] ∧ annC7w.requirements = [] ∧ annC7w.specifications = [] ∧
       annC7w.traces = [] ∧ riskHeadNotLow annC7w.risk_levels = true) :=
  c7_edge_error_iff annC7w (by decide)

end GxpMd
